import Mathlib

/-!
ANSI escape codes: the control-sequence value type and its serializer.

A shallow embedding of `include/ansi/csi.hpp` (the `csi<N>` value type and the
stream insertion operator) and `include/ansi/iomanip.hpp` (the catalog of named
manipulators and the factory functions), followed by theorems about the text
that the serializer produces.

Modelling conventions.

* `ansi::byte` (`std::uint8_t`) is `Fin 256`; `static_cast<unsigned>` is `Fin.val`.
* The array member `byte value[N]` is a function `Fin N → byte`, so every
  subscript carries the proof that it is in bounds.
* `char` is `Char`; every character the library itself writes is ASCII.
* `std::ostream` is the list of characters written to it so far.  The stream is
  taken in its default formatting state (decimal base, field width zero,
  classic locale), which is the state in which the example programs use it.
* The operator sets and restores no formatting flag.  Its dependence on the
  state of the stream is treated on `fmt_ostream`, a stream that carries base
  field, field width, fill character and adjustment; on a stream in the default
  state it agrees with the operator on the plain character list.
-/

namespace ansi

/-! ## csi.hpp -/

/-- Type alias for the smallest unsigned integer: `using byte = std::uint8_t`. -/
abbrev byte := Fin 256

/-- Control sequence value `csi<N>`: `N` byte parameters and the delimiter.
For `N = 0` the type `Fin 0 → byte` has exactly one inhabitant, so the value
carries the delimiter only; that is the explicit specialisation `csi<0>`. -/
structure csi (N : Nat) where
  /-- CSI values, `byte value[N]`. -/
  value : Fin N → byte
  /-- CSI delimiter, `char delim`. -/
  delim : Char

/-- Select Graphics Rendition alias for single-valued CSI. -/
abbrev sgr := csi 1

/-- Alias for the three-valued CSI of an 8-bit colour. -/
abbrev col := csi 3

/-- Alias for the five-valued CSI of an RGB colour. -/
abbrev rgb := csi 5

/-- Aggregate initialisation of `byte value[N]` from a braced list: the listed
initialisers fill the leading elements and every element without an initialiser
is value-initialised to zero. -/
def brace_init (N : Nat) (xs : List byte) : Fin N → byte :=
  fun i => xs.getD i.val 0

/-- The initialiser `{'H'}` of the specialisation `csi<0>`. -/
def csi.init0 (delim : Char) : csi 0 := ⟨brace_init 0 [], delim⟩

/-- The output sink: the characters written to the stream so far. -/
abbrev ostream := List Char

/-- Digit `d` (`0 ≤ d ≤ 9`) as a character. -/
def digit_char (d : Nat) : Char := Char.ofNat (48 + d)

/-- Digits of `n` in base ten, most significant first, pushed in front of `acc`;
the first argument bounds the number of divisions. -/
def decimal_digits : Nat → Nat → List Char → List Char
  | 0, _, acc => acc
  | fuel + 1, n, acc =>
    if n / 10 = 0 then digit_char (n % 10) :: acc
    else decimal_digits fuel (n / 10) (digit_char (n % 10) :: acc)

/-- Text that inserting an `unsigned` into a stream in its default formatting
state produces: the decimal digits of the number. -/
def decimal (n : Nat) : List Char := decimal_digits (n + 1) n []

/-- Insertion of a string literal, `os << "..."`. -/
def ostream.put_str (os : ostream) (s : String) : ostream := os ++ s.toList

/-- Insertion of one character, `os << c`. -/
def ostream.put_char (os : ostream) (c : Char) : ostream := os ++ [c]

/-- Insertion of an unsigned number, `os << static_cast<unsigned>(b)`. -/
def ostream.put_unsigned (os : ostream) (n : Nat) : ostream := os ++ decimal n

/-- The loop `for (std::size_t i = 1; i < N; i++) os << ';' << value[i];`
started at index `i`.  The first argument bounds the number of iterations; the
loop itself stops when `i < N` fails. -/
def for_loop {N : Nat} (value : Fin N → byte) : Nat → Nat → ostream → ostream
  | 0, _, os => os
  | fuel + 1, i, os =>
    if h : i < N then
      for_loop value fuel (i + 1) ((os.put_char ';').put_unsigned (value ⟨i, h⟩).val)
    else os

/-- The stream insertion operator `operator<<(std::ostream&, const csi<N>&)`. -/
def operator_shl {N : Nat} (os : ostream) (obj : csi N) : ostream :=
  let os := os.put_str "\x1b["
  let os := if h : N > 0 then os.put_unsigned (obj.value ⟨0, h⟩).val else os
  let os := if N > 1 then for_loop obj.value N 1 os else os
  os.put_char obj.delim

/-- Serialized form of a sequence value: what the insertion operator writes to
an empty stream. -/
def serialize {N : Nat} (obj : csi N) : List Char := operator_shl [] obj

/-! ### The stream with its formatting state

The insertion operator neither sets nor restores any formatting flag of the
stream it writes to, so what it appends also depends on the state the stream is
in.  The definitions below repeat the operator on a stream that carries the
part of `std::ios_base` that formatted insertion of a string, a character and an
`unsigned` reads: the base field, the field width, the fill character and
whether the adjustment is `left`.  The flags `showbase` and `uppercase` and the
locale are taken at their defaults. -/

/-- The `basefield` of the stream: `dec` (also any other setting that is neither
`oct` nor `hex`), `oct` or `hex`. -/
inductive basefield where
  /-- Decimal conversion. -/
  | dec
  /-- Octal conversion. -/
  | oct
  /-- Hexadecimal conversion. -/
  | hex
  deriving DecidableEq, Repr

/-- An output stream together with its formatting state. -/
structure fmt_ostream where
  /-- The characters written so far. -/
  buf : List Char
  /-- The base field, `os.flags() & std::ios_base::basefield`. -/
  base : basefield
  /-- The field width, `os.width()`. -/
  width : Nat
  /-- The fill character, `os.fill()`. -/
  fill : Char
  /-- Whether the adjust field is `left`. -/
  left : Bool
  deriving DecidableEq

/-- A stream with the given content in the formatting state of a freshly
constructed stream: decimal, width zero, fill character space, not `left`. -/
def fmt_ostream.fresh (buf : List Char) : fmt_ostream := ⟨buf, basefield.dec, 0, ' ', false⟩

/-- Digit `d` (`0 ≤ d ≤ 15`) as a character, lower case above nine. -/
def base_digit_char (d : Nat) : Char :=
  if d < 10 then Char.ofNat (48 + d) else Char.ofNat (87 + d)

/-- Digits of `n` in base `b`, most significant first, pushed in front of `acc`;
the first argument bounds the number of divisions. -/
def base_digits (b : Nat) : Nat → Nat → List Char → List Char
  | 0, _, acc => acc
  | fuel + 1, n, acc =>
    if n / b = 0 then base_digit_char (n % b) :: acc
    else base_digits b fuel (n / b) (base_digit_char (n % b) :: acc)

/-- Conversion of an `unsigned` according to the base field. -/
def number_text (base : basefield) (n : Nat) : List Char :=
  match base with
  | basefield.dec => decimal n
  | basefield.oct => base_digits 8 (n + 1) n []
  | basefield.hex => base_digits 16 (n + 1) n []

/-- Padding of a character sequence to the field width: the missing characters
are copies of the fill character, placed after the sequence when the adjustment
is `left` and before it otherwise. -/
def fmt_ostream.pad (os : fmt_ostream) (seq : List Char) : List Char :=
  if os.left then seq ++ List.replicate (os.width - seq.length) os.fill
  else List.replicate (os.width - seq.length) os.fill ++ seq

/-- A formatted insertion: the padded sequence is appended and `width(0)` is
called. -/
def fmt_ostream.insert (os : fmt_ostream) (seq : List Char) : fmt_ostream :=
  ⟨os.buf ++ os.pad seq, os.base, 0, os.fill, os.left⟩

/-- Insertion of a string literal, `os << "..."`. -/
def fmt_ostream.put_str (os : fmt_ostream) (s : String) : fmt_ostream := os.insert s.toList

/-- Insertion of one character, `os << c`. -/
def fmt_ostream.put_char (os : fmt_ostream) (c : Char) : fmt_ostream := os.insert [c]

/-- Insertion of an unsigned number, `os << static_cast<unsigned>(b)`. -/
def fmt_ostream.put_unsigned (os : fmt_ostream) (n : Nat) : fmt_ostream :=
  os.insert (number_text os.base n)

/-- The loop `for (std::size_t i = 1; i < N; i++) os << ';' << value[i];` on a
stream with formatting state, started at index `i`; the first argument bounds
the number of iterations. -/
def for_loop_fmt {N : Nat} (value : Fin N → byte) : Nat → Nat → fmt_ostream → fmt_ostream
  | 0, _, os => os
  | fuel + 1, i, os =>
    if h : i < N then
      for_loop_fmt value fuel (i + 1) ((os.put_char ';').put_unsigned (value ⟨i, h⟩).val)
    else os

/-- The stream insertion operator `operator<<(std::ostream&, const csi<N>&)` on
a stream with formatting state. -/
def operator_shl_fmt {N : Nat} (os : fmt_ostream) (obj : csi N) : fmt_ostream :=
  let os := os.put_str "\x1b["
  let os := if h : N > 0 then os.put_unsigned (obj.value ⟨0, h⟩).val else os
  let os := if N > 1 then for_loop_fmt obj.value N 1 os else os
  os.put_char obj.delim

/-- The text that inserting `obj` appends to the stream `os`. -/
def appended {N : Nat} (os : fmt_ostream) (obj : csi N) : List Char :=
  (operator_shl_fmt os obj).buf.drop os.buf.length

/-- The stream `os` with the text `p` in front of its content and the same
formatting state. -/
def fmt_ostream.prepend (p : List Char) (os : fmt_ostream) : fmt_ostream :=
  ⟨p ++ os.buf, os.base, os.width, os.fill, os.left⟩

/-! ## iomanip.hpp -/

/-- Reset or normal: `constexpr inline sgr reset{{}, 'm'};`. -/
def reset : sgr := ⟨brace_init 1 [], 'm'⟩

namespace caret

/-- Caret up: `{{lines}, 'A'}`. -/
def up (lines : byte := 1) : csi 1 := ⟨brace_init 1 [lines], 'A'⟩

/-- Caret down: `{{lines}, 'B'}`. -/
def down (lines : byte := 1) : csi 1 := ⟨brace_init 1 [lines], 'B'⟩

/-- Caret forward: `{{lines}, 'C'}`. -/
def forward (lines : byte := 1) : csi 1 := ⟨brace_init 1 [lines], 'C'⟩

/-- Caret back: `{{lines}, 'D'}`. -/
def back (lines : byte := 1) : csi 1 := ⟨brace_init 1 [lines], 'D'⟩

/-- Caret to a column, the overload `move(const byte column)`. -/
def move (column : byte) : csi 1 := ⟨brace_init 1 [column], 'G'⟩

/-- Caret to a cell, the overload `move(const byte row, const byte column)`. -/
def move2 (row column : byte) : csi 2 := ⟨brace_init 2 [row, column], 'H'⟩

/-- Caret to the origin: `{'H'}`. -/
def home : csi 0 := csi.init0 'H'

end caret

namespace line

/-- Caret to the beginning of the next line. -/
def next (lines : byte := 1) : csi 1 := ⟨brace_init 1 [lines], 'E'⟩

/-- Caret to the beginning of the previous line. -/
def prev (lines : byte := 1) : csi 1 := ⟨brace_init 1 [lines], 'F'⟩

end line

namespace erase

/-- Erase mode specializations, `enum erase_mode : byte`. -/
inductive erase_mode where
  /-- Erase from caret to the end. -/
  | from_caret
  /-- Erase from the beginning to caret. -/
  | to_caret
  /-- Erase wholely. -/
  | whole
  /-- Erase wholely and clear scrollback buffer. -/
  | scrollback
  deriving DecidableEq, Repr

/-- Value of an enumerator in the underlying type `byte`: enumerators without an
initialiser count up from zero in declaration order. -/
def erase_mode.to_byte : erase_mode → byte
  | .from_caret => 0
  | .to_caret => 1
  | .whole => 2
  | .scrollback => 3

/-- Erases in display: `{how, 'J'}`. -/
def all (how : erase_mode := erase_mode.whole) : csi 1 := ⟨brace_init 1 [how.to_byte], 'J'⟩

/-- Erases in line: `{how, 'K'}`. -/
def line (how : erase_mode := erase_mode.whole) : csi 1 := ⟨brace_init 1 [how.to_byte], 'K'⟩

end erase

namespace scroll

/-- Scrolls page up. -/
def up (lines : byte := 1) : csi 1 := ⟨brace_init 1 [lines], 'S'⟩

/-- Scrolls page down. -/
def down (lines : byte := 1) : csi 1 := ⟨brace_init 1 [lines], 'T'⟩

end scroll

namespace text

/-- Makes text bold or increased intensity. -/
def bold : sgr := ⟨brace_init 1 [1], 'm'⟩

/-- Makes text faint or decreased intensity, dim. -/
def faint : sgr := ⟨brace_init 1 [2], 'm'⟩

/-- Makes text italic. -/
def italic : sgr := ⟨brace_init 1 [3], 'm'⟩

/-- Makes text underlined. -/
def underline : sgr := ⟨brace_init 1 [4], 'm'⟩

/-- Makes text doubly underlined. -/
def double_underline : sgr := ⟨brace_init 1 [21], 'm'⟩

/-- Makes text blink 150 times a minute. -/
def blink : sgr := ⟨brace_init 1 [5], 'm'⟩

/-- Makes text blink more than 150 times a minute. -/
def blink_fast : sgr := ⟨brace_init 1 [6], 'm'⟩

/-- Swaps foreground and background colors. -/
def invert : sgr := ⟨brace_init 1 [7], 'm'⟩

/-- Swaps foreground and background colors back. -/
def revert : sgr := ⟨brace_init 1 [27], 'm'⟩

/-- Makes text invisible. -/
def conceal : sgr := ⟨brace_init 1 [8], 'm'⟩

/-- Makes text visible. -/
def reveal : sgr := ⟨brace_init 1 [28], 'm'⟩

/-- Makes text strikethrough. -/
def strike : sgr := ⟨brace_init 1 [9], 'm'⟩

/-- Makes text overlined. -/
def overline : sgr := ⟨brace_init 1 [53], 'm'⟩

namespace un

/-- Undoes the bold text. -/
def bold : sgr := ⟨brace_init 1 [22], 'm'⟩

/-- Undoes the faint text. -/
def faint : sgr := ⟨brace_init 1 [22], 'm'⟩

/-- Undoes the italic text. -/
def italic : sgr := ⟨brace_init 1 [23], 'm'⟩

/-- Undoes the underlined text. -/
def underline : sgr := ⟨brace_init 1 [24], 'm'⟩

/-- Stops text from blinking. -/
def blink : sgr := ⟨brace_init 1 [25], 'm'⟩

/-- Undoes the swapped colors. -/
def invert : sgr := ⟨brace_init 1 [27], 'm'⟩

/-- Undoes the hidden text. -/
def conceal : sgr := ⟨brace_init 1 [28], 'm'⟩

/-- Undoes the strikethrough text. -/
def strike : sgr := ⟨brace_init 1 [29], 'm'⟩

/-- Undoes the overlined text. -/
def overline : sgr := ⟨brace_init 1 [55], 'm'⟩

end un

end text

namespace fg

/-- Restores default color. -/
def regular : sgr := ⟨brace_init 1 [39], 'm'⟩

/-- Makes the color black. -/
def black : sgr := ⟨brace_init 1 [30], 'm'⟩

/-- Makes the color red. -/
def red : sgr := ⟨brace_init 1 [31], 'm'⟩

/-- Makes the color green. -/
def green : sgr := ⟨brace_init 1 [32], 'm'⟩

/-- Makes the color yellow. -/
def yellow : sgr := ⟨brace_init 1 [33], 'm'⟩

/-- Makes the color indigo. -/
def indigo : sgr := ⟨brace_init 1 [34], 'm'⟩

/-- Makes the color magenta. -/
def magenta : sgr := ⟨brace_init 1 [35], 'm'⟩

/-- Makes the color cyan. -/
def cyan : sgr := ⟨brace_init 1 [36], 'm'⟩

/-- Makes the color white. -/
def white : sgr := ⟨brace_init 1 [37], 'm'⟩

/-- Makes the color gray. -/
def gray : sgr := ⟨brace_init 1 [90], 'm'⟩

/-- Sets a custom 8-bit color: `{{38, 5, color}, 'm'}`. -/
def set (color : byte) : col := ⟨brace_init 3 [38, 5, color], 'm'⟩

/-- Sets a custom RGB color: `{{38, 2, r, g, b}, 'm'}`. -/
def rgb (r g b : byte) : ansi.rgb := ⟨brace_init 5 [38, 2, r, g, b], 'm'⟩

namespace bright

/-- Makes the color bright black. -/
def black : sgr := ⟨brace_init 1 [90], 'm'⟩

/-- Makes the color bright red. -/
def red : sgr := ⟨brace_init 1 [91], 'm'⟩

/-- Makes the color bright green. -/
def green : sgr := ⟨brace_init 1 [92], 'm'⟩

/-- Makes the color bright yellow. -/
def yellow : sgr := ⟨brace_init 1 [93], 'm'⟩

/-- Makes the color bright indigo. -/
def indigo : sgr := ⟨brace_init 1 [94], 'm'⟩

/-- Makes the color bright magenta. -/
def magenta : sgr := ⟨brace_init 1 [95], 'm'⟩

/-- Makes the color bright cyan. -/
def cyan : sgr := ⟨brace_init 1 [96], 'm'⟩

/-- Makes the color bright white. -/
def white : sgr := ⟨brace_init 1 [97], 'm'⟩

end bright

end fg

namespace bg

/-- Restores default color. -/
def regular : sgr := ⟨brace_init 1 [49], 'm'⟩

/-- Makes the color black. -/
def black : sgr := ⟨brace_init 1 [40], 'm'⟩

/-- Makes the color red. -/
def red : sgr := ⟨brace_init 1 [41], 'm'⟩

/-- Makes the color green. -/
def green : sgr := ⟨brace_init 1 [42], 'm'⟩

/-- Makes the color yellow. -/
def yellow : sgr := ⟨brace_init 1 [43], 'm'⟩

/-- Makes the color indigo. -/
def indigo : sgr := ⟨brace_init 1 [44], 'm'⟩

/-- Makes the color magenta. -/
def magenta : sgr := ⟨brace_init 1 [45], 'm'⟩

/-- Makes the color cyan. -/
def cyan : sgr := ⟨brace_init 1 [46], 'm'⟩

/-- Makes the color white. -/
def white : sgr := ⟨brace_init 1 [47], 'm'⟩

/-- Makes the color gray. -/
def gray : sgr := ⟨brace_init 1 [100], 'm'⟩

/-- Sets a custom 8-bit color: `{{48, 5, color}, 'm'}`. -/
def set (color : byte) : col := ⟨brace_init 3 [48, 5, color], 'm'⟩

/-- Sets a custom RGB color: `{{48, 2, r, g, b}, 'm'}`. -/
def rgb (r g b : byte) : ansi.rgb := ⟨brace_init 5 [48, 2, r, g, b], 'm'⟩

namespace bright

/-- Makes the color bright black. -/
def black : sgr := ⟨brace_init 1 [100], 'm'⟩

/-- Makes the color bright red. -/
def red : sgr := ⟨brace_init 1 [101], 'm'⟩

/-- Makes the color bright green. -/
def green : sgr := ⟨brace_init 1 [102], 'm'⟩

/-- Makes the color bright yellow. -/
def yellow : sgr := ⟨brace_init 1 [103], 'm'⟩

/-- Makes the color bright indigo. -/
def indigo : sgr := ⟨brace_init 1 [104], 'm'⟩

/-- Makes the color bright magenta. -/
def magenta : sgr := ⟨brace_init 1 [105], 'm'⟩

/-- Makes the color bright cyan. -/
def cyan : sgr := ⟨brace_init 1 [106], 'm'⟩

/-- Makes the color bright white. -/
def white : sgr := ⟨brace_init 1 [107], 'm'⟩

end bright

end bg

namespace underline

/-- Restores default color. -/
def regular : sgr := ⟨brace_init 1 [59], 'm'⟩

/-- Sets a custom 8-bit color: `{{58, 5, color}, 'm'}`. -/
def set (color : byte) : col := ⟨brace_init 3 [58, 5, color], 'm'⟩

/-- Sets a custom RGB color: `{{58, 2, red, green, blue}, 'm'}`. -/
def rgb (red green blue : byte) : ansi.rgb := ⟨brace_init 5 [58, 2, red, green, blue], 'm'⟩

end underline

end ansi

/-! ## ansi.h

The text macros of the alternate header.  A macro is the string literal it
expands to; a macro parameter `n` is the spelling of the argument, which the
operator `#n` turns into a string literal, and adjacent string literals are
concatenated.  Both groups of the header (`_ANSI_CSI` and `_ANSI_SGR`) are taken
as enabled, which is the default of the header.  The line of the header that
reads `/// @brief Neither italic, nor blackletter.#define UN_ITALIC SGR(23)` is
a comment, so it defines no macro. -/

namespace ansi_h

/-- ANSI sequence starter, escape character: `#define ESC "\x1b["`. -/
def ESC : String := "\x1b["

/-- Caret Up: `#define CUU(n) ESC #n "A"`. -/
def CUU (n : String) : String := ESC ++ n ++ "A"

/-- Caret Down: `#define CUD(n) ESC #n "B"`. -/
def CUD (n : String) : String := ESC ++ n ++ "B"

/-- Caret Forward: `#define CUF(n) ESC #n "C"`. -/
def CUF (n : String) : String := ESC ++ n ++ "C"

/-- Caret Back: `#define CUB(n) ESC #n "D"`. -/
def CUB (n : String) : String := ESC ++ n ++ "D"

/-- Caret Next Line: `#define CNL(n) ESC #n "E"`. -/
def CNL (n : String) : String := ESC ++ n ++ "E"

/-- Caret Previous Line: `#define CPL(n) ESC #n "F"`. -/
def CPL (n : String) : String := ESC ++ n ++ "F"

/-- Caret Horizontal Absolute: `#define CHA(n) ESC #n "G"`. -/
def CHA (n : String) : String := ESC ++ n ++ "G"

/-- Caret Position: `#define CUP(n, m) ESC #n ";" #m "H"`. -/
def CUP (n m : String) : String := ESC ++ n ++ ";" ++ m ++ "H"

/-- Horizontal Vertical Position: `#define HVP(n, m) ESC #n ";" #m "f"`. -/
def HVP (n m : String) : String := ESC ++ n ++ ";" ++ m ++ "f"

/-- Erase in Display: `#define ED(n) ESC #n "J"`. -/
def ED (n : String) : String := ESC ++ n ++ "J"

/-- Erase in Line: `#define EL(n) ESC #n "K"`. -/
def EL (n : String) : String := ESC ++ n ++ "K"

/-- Scroll Up: `#define SU(n) ESC #n "S"`. -/
def SU (n : String) : String := ESC ++ n ++ "S"

/-- Scroll Down: `#define SD(n) ESC #n "T"`. -/
def SD (n : String) : String := ESC ++ n ++ "T"

/-- Device Status Report: `#define DSR ESC "6n"`. -/
def DSR : String := ESC ++ "6n"

/-- Save Caret Position: `#define SCP ESC "s"`. -/
def SCP : String := ESC ++ "s"

/-- Restore Caret Position: `#define RCP ESC "u"`. -/
def RCP : String := ESC ++ "u"

/-- Select Graphics Rendition: `#define SGR(n) ESC #n "m"`. -/
def SGR (n : String) : String := ESC ++ n ++ "m"

/-- Reset or normal: `#define RESET SGR(0)`. -/
def RESET : String := SGR "0"

/-- Bold or increased intensity: `#define BOLD SGR(1)`. -/
def BOLD : String := SGR "1"

/-- Faint, decreased intensity, or dim: `#define FAINT SGR(2)`. -/
def FAINT : String := SGR "2"

/-- Italic: `#define ITALIC SGR(3)`. -/
def ITALIC : String := SGR "3"

/-- Underline: `#define UNDERLINE SGR(4)`. -/
def UNDERLINE : String := SGR "4"

/-- Slow blink: `#define BLINK SGR(5)`. -/
def BLINK : String := SGR "5"

/-- Rapid blink: `#define RAPID_BLINK SGR(6)`. -/
def RAPID_BLINK : String := SGR "6"

/-- Reverse video or invert: `#define INVERT SGR(7)`. -/
def INVERT : String := SGR "7"

/-- Conceal or hide: `#define HIDE SGR(8)`. -/
def HIDE : String := SGR "8"

/-- Crossed-out or strike: `#define STRIKE SGR(9)`. -/
def STRIKE : String := SGR "9"

/-- Doubly underlined or not bold: `#define DOUBLE_UNDERLINE SGR(21)`. -/
def DOUBLE_UNDERLINE : String := SGR "21"

/-- Overlined: `#define OVERLINE SGR(53)`. -/
def OVERLINE : String := SGR "53"

/-- Normal intensity: `#define NORMAL SGR(22)`. -/
def NORMAL : String := SGR "22"

/-- Not underlined: `#define UN_UNDERLINE SGR(24)`. -/
def UN_UNDERLINE : String := SGR "24"

/-- Not blinking: `#define UN_BLINK SGR(25)`. -/
def UN_BLINK : String := SGR "25"

/-- Not reversed: `#define UN_INVERT SGR(27)`. -/
def UN_INVERT : String := SGR "27"

/-- Not reversed: `#define REVERT SGR(27)`. -/
def REVERT : String := SGR "27"

/-- Not concealed: `#define UN_HIDE SGR(28)`. -/
def UN_HIDE : String := SGR "28"

/-- Not concealed: `#define REVEAL SGR(28)`. -/
def REVEAL : String := SGR "28"

/-- Not crossed out: `#define UN_STRIKE SGR(29)`. -/
def UN_STRIKE : String := SGR "29"

/-- Overlined: `#define UN_OVERLINE SGR(55)`. -/
def UN_OVERLINE : String := SGR "55"

/-- Sets foreground to black: `#define FG_BLACK SGR(30)`. -/
def FG_BLACK : String := SGR "30"

/-- Sets foreground to red: `#define FG_RED SGR(31)`. -/
def FG_RED : String := SGR "31"

/-- Sets foreground to green: `#define FG_GREEN SGR(32)`. -/
def FG_GREEN : String := SGR "32"

/-- Sets foreground to yellow: `#define FG_YELLOW SGR(33)`. -/
def FG_YELLOW : String := SGR "33"

/-- Sets foreground to blue: `#define FG_BLUE SGR(34)`. -/
def FG_BLUE : String := SGR "34"

/-- Sets foreground to magenta: `#define FG_MAGENTA SGR(35)`. -/
def FG_MAGENTA : String := SGR "35"

/-- Sets foreground to cyan: `#define FG_CYAN SGR(36)`. -/
def FG_CYAN : String := SGR "36"

/-- Sets foreground to white: `#define FG_WHITE SGR(37)`. -/
def FG_WHITE : String := SGR "37"

/-- Sets foreground to gray: `#define FG_GRAY SGR(90)`. -/
def FG_GRAY : String := SGR "90"

/-- Sets foreground to bright black: `#define FG_BRIGHT_BLACK SGR(90)`. -/
def FG_BRIGHT_BLACK : String := SGR "90"

/-- Sets foreground to bright red: `#define FG_BRIGHT_RED SGR(91)`. -/
def FG_BRIGHT_RED : String := SGR "91"

/-- Sets foreground to bright green: `#define FG_BRIGHT_GREEN SGR(92)`. -/
def FG_BRIGHT_GREEN : String := SGR "92"

/-- Sets foreground to bright yellow: `#define FG_BRIGHT_YELLOW SGR(93)`. -/
def FG_BRIGHT_YELLOW : String := SGR "93"

/-- Sets foreground to bright blue: `#define FG_BRIGHT_BLUE SGR(94)`. -/
def FG_BRIGHT_BLUE : String := SGR "94"

/-- Sets foreground to bright magenta: `#define FG_BRIGHT_MAGENTA SGR(95)`. -/
def FG_BRIGHT_MAGENTA : String := SGR "95"

/-- Sets foreground to bright cyan: `#define FG_BRIGHT_CYAN SGR(96)`. -/
def FG_BRIGHT_CYAN : String := SGR "96"

/-- Sets foreground to bright white: `#define FG_BRIGHT_WHITE SGR(97)`. -/
def FG_BRIGHT_WHITE : String := SGR "97"

/-- Sets background to black: `#define BG_BLACK SGR(40)`. -/
def BG_BLACK : String := SGR "40"

/-- Sets background to red: `#define BG_RED SGR(41)`. -/
def BG_RED : String := SGR "41"

/-- Sets background to green: `#define BG_GREEN SGR(42)`. -/
def BG_GREEN : String := SGR "42"

/-- Sets background to yellow: `#define BG_YELLOW SGR(43)`. -/
def BG_YELLOW : String := SGR "43"

/-- Sets background to blue: `#define BG_BLUE SGR(44)`. -/
def BG_BLUE : String := SGR "44"

/-- Sets background to magenta: `#define BG_MAGENTA SGR(45)`. -/
def BG_MAGENTA : String := SGR "45"

/-- Sets background to cyan: `#define BG_CYAN SGR(46)`. -/
def BG_CYAN : String := SGR "46"

/-- Sets background to white: `#define BG_WHITE SGR(47)`. -/
def BG_WHITE : String := SGR "47"

/-- Sets background to gray: `#define BG_GRAY SGR(100)`. -/
def BG_GRAY : String := SGR "100"

/-- Sets background to bright black: `#define BG_BRIGHT_BLACK SGR(100)`. -/
def BG_BRIGHT_BLACK : String := SGR "100"

/-- Sets background to bright red: `#define BG_BRIGHT_RED SGR(101)`. -/
def BG_BRIGHT_RED : String := SGR "101"

/-- Sets background to bright green: `#define BG_BRIGHT_GREEN SGR(102)`. -/
def BG_BRIGHT_GREEN : String := SGR "102"

/-- Sets background to bright yellow: `#define BG_BRIGHT_YELLOW SGR(103)`. -/
def BG_BRIGHT_YELLOW : String := SGR "103"

/-- Sets background to bright blue: `#define BG_BRIGHT_BLUE SGR(104)`. -/
def BG_BRIGHT_BLUE : String := SGR "104"

/-- Sets background to bright magenta: `#define BG_BRIGHT_MAGENTA SGR(105)`. -/
def BG_BRIGHT_MAGENTA : String := SGR "105"

/-- Sets background to bright cyan: `#define BG_BRIGHT_CYAN SGR(106)`. -/
def BG_BRIGHT_CYAN : String := SGR "106"

/-- Sets background to bright white: `#define BG_BRIGHT_WHITE SGR(107)`. -/
def BG_BRIGHT_WHITE : String := SGR "107"

/-- Sets foreground color: `#define FG_SET(n) ESC "38;5;" #n "m"`. -/
def FG_SET (n : String) : String := ESC ++ "38;5;" ++ n ++ "m"

/-- Sets foreground color: `#define FG_RGB(r, g, b) ESC "38;2;" #r ";" #g ";" #b "m"`. -/
def FG_RGB (r g b : String) : String := ESC ++ "38;2;" ++ r ++ ";" ++ g ++ ";" ++ b ++ "m"

/-- Sets background color: `#define BG_SET(n) ESC "48;5;" #n "m"`. -/
def BG_SET (n : String) : String := ESC ++ "48;5;" ++ n ++ "m"

/-- Sets background color: `#define BG_RGB(r, g, b) ESC "48;2;" #r ";" #g ";" #b "m"`. -/
def BG_RGB (r g b : String) : String := ESC ++ "48;2;" ++ r ++ ";" ++ g ++ ";" ++ b ++ "m"

/-- Sets underline color: `#define UNDERLINE_SET(n) ESC "58;5;" #n "m"`. -/
def UNDERLINE_SET (n : String) : String := ESC ++ "58;5;" ++ n ++ "m"

/-- Sets underline color: `#define UNDERLINE_RGB(r, g, b) ESC "58;2;" #r ";" #g ";" #b "m"`. -/
def UNDERLINE_RGB (r g b : String) : String := ESC ++ "58;2;" ++ r ++ ";" ++ g ++ ";" ++ b ++ "m"

/-- The argument-free macros of the `_ANSI_CSI` group, each with its name. -/
def csi_macros : List (String × String) :=
  [("DSR", DSR), ("SCP", SCP), ("RCP", RCP)]

/-- The argument-free macros of the `_ANSI_SGR` group, each with its name, in
the order of the header. -/
def sgr_macros : List (String × String) :=
  [("RESET", RESET), ("BOLD", BOLD), ("FAINT", FAINT), ("ITALIC", ITALIC),
    ("UNDERLINE", UNDERLINE), ("BLINK", BLINK), ("RAPID_BLINK", RAPID_BLINK), ("INVERT", INVERT),
    ("HIDE", HIDE), ("STRIKE", STRIKE), ("DOUBLE_UNDERLINE", DOUBLE_UNDERLINE),
    ("OVERLINE", OVERLINE), ("NORMAL", NORMAL), ("UN_UNDERLINE", UN_UNDERLINE),
    ("UN_BLINK", UN_BLINK), ("UN_INVERT", UN_INVERT), ("REVERT", REVERT), ("UN_HIDE", UN_HIDE),
    ("REVEAL", REVEAL), ("UN_STRIKE", UN_STRIKE), ("UN_OVERLINE", UN_OVERLINE),
    ("FG_BLACK", FG_BLACK), ("FG_RED", FG_RED), ("FG_GREEN", FG_GREEN), ("FG_YELLOW", FG_YELLOW),
    ("FG_BLUE", FG_BLUE), ("FG_MAGENTA", FG_MAGENTA), ("FG_CYAN", FG_CYAN),
    ("FG_WHITE", FG_WHITE), ("FG_GRAY", FG_GRAY), ("FG_BRIGHT_BLACK", FG_BRIGHT_BLACK),
    ("FG_BRIGHT_RED", FG_BRIGHT_RED), ("FG_BRIGHT_GREEN", FG_BRIGHT_GREEN),
    ("FG_BRIGHT_YELLOW", FG_BRIGHT_YELLOW), ("FG_BRIGHT_BLUE", FG_BRIGHT_BLUE),
    ("FG_BRIGHT_MAGENTA", FG_BRIGHT_MAGENTA), ("FG_BRIGHT_CYAN", FG_BRIGHT_CYAN),
    ("FG_BRIGHT_WHITE", FG_BRIGHT_WHITE), ("BG_BLACK", BG_BLACK), ("BG_RED", BG_RED),
    ("BG_GREEN", BG_GREEN), ("BG_YELLOW", BG_YELLOW), ("BG_BLUE", BG_BLUE),
    ("BG_MAGENTA", BG_MAGENTA), ("BG_CYAN", BG_CYAN), ("BG_WHITE", BG_WHITE),
    ("BG_GRAY", BG_GRAY), ("BG_BRIGHT_BLACK", BG_BRIGHT_BLACK), ("BG_BRIGHT_RED", BG_BRIGHT_RED),
    ("BG_BRIGHT_GREEN", BG_BRIGHT_GREEN), ("BG_BRIGHT_YELLOW", BG_BRIGHT_YELLOW),
    ("BG_BRIGHT_BLUE", BG_BRIGHT_BLUE), ("BG_BRIGHT_MAGENTA", BG_BRIGHT_MAGENTA),
    ("BG_BRIGHT_CYAN", BG_BRIGHT_CYAN), ("BG_BRIGHT_WHITE", BG_BRIGHT_WHITE)]

end ansi_h

namespace ansi

/-! ## Auxiliary definitions for the statements -/

/-- Text of one loop iteration: the separator and the decimal parameter. -/
def sep_param (b : byte) : List Char := ';' :: decimal b.val

/-- Value of a digit string read as a base-ten number, most significant digit
first. -/
def read_decimal (s : List Char) : Nat :=
  s.foldl (fun acc c => 10 * acc + (c.toNat - 48)) 0

/-- The parameter text between introducer and terminator: the decimal texts of
the parameters joined by `;`. -/
def param_text (ps : List byte) : List Char :=
  List.intercalate [';'] (ps.map fun b => decimal b.val)

/-- Characters that can occur in the parameter text: the decimal digits and the
separator `;`. -/
def param_char (c : Char) : Bool := c.isDigit || c == ';'

/-- A sequence value of any arity: the template argument `N` together with a
value of `csi<N>`. -/
abbrev any_csi := (N : Nat) × csi N

/-- The template argument of the type of a sequence value. -/
def arity (v : any_csi) : Nat := v.1

/-- The parameters of a sequence value in index order, `value[0], ..., value[N-1]`. -/
def params (v : any_csi) : List byte := List.ofFn v.2.value

/-- Serialized form of a sequence value of any arity. -/
def render (v : any_csi) : List Char := serialize v.2

/-- Insertion of several sequence values one after the other into the same
stream, `os << v1 << v2 << ... << vk`. -/
def insert_all (os : ostream) (vs : List any_csi) : ostream :=
  vs.foldl (fun acc v => operator_shl acc v.2) os

/-- The terminator characters listed for the wire format:
`A B C D E F G H J K S T f m n s u`. -/
def terminators : List Char :=
  ['A', 'B', 'C', 'D', 'E', 'F', 'G', 'H', 'J', 'K', 'S', 'T', 'f', 'm', 'n', 's', 'u']

/-- A text is a terminated control sequence: it starts with the introducer
ESC `[`, has at least one more character, and its last character is one of the
listed terminators. -/
def well_terminated (s : List Char) : Prop :=
  s.take 2 = ['\x1b', '['] ∧ 3 ≤ s.length ∧ ∃ t ∈ terminators, s.getLast? = some t

instance : DecidablePred well_terminated := fun s => by
  unfold well_terminated
  infer_instance

/-- Canonical decimal literal of a byte as it is spelled in a macro argument:
no leading zeros, no sign. -/
def literal (b : byte) : String := Nat.repr b.val

/-- The loop of the insertion operator on a raw array: `mem[i]` is an unchecked
subscript, so a read outside `mem` yields no result; the indices read are
recorded.  The first argument bounds the number of evaluations of the loop
condition, and running out of it yields no result either. -/
def for_loop_raw (N : Nat) (mem : List byte) :
    Nat → Nat → ostream × List Nat → Option (ostream × List Nat)
  | 0, _, _ => none
  | fuel + 1, i, st =>
    if i < N then
      match mem.get? i with
      | none => none
      | some b =>
        for_loop_raw N mem fuel (i + 1)
          ((st.1.put_char ';').put_unsigned b.val, st.2 ++ [i])
    else some st

/-- The insertion operator on a raw array of parameters with unchecked
subscripts: the result is the stream together with the list of indices read,
or nothing when a read falls outside the array or the loop does not finish
within `fuel` evaluations of its condition. -/
def operator_shl_raw (N : Nat) (mem : List byte) (delim : Char) (fuel : Nat)
    (os : ostream) : Option (ostream × List Nat) :=
  let st : Option (ostream × List Nat) :=
    if N > 0 then
      match mem.get? 0 with
      | none => none
      | some b => some ((os.put_str "\x1b[").put_unsigned b.val, [0])
    else some (os.put_str "\x1b[", [])
  let st := if N > 1 then st.bind (for_loop_raw N mem fuel 1) else st
  st.map fun r => (r.1.put_char delim, r.2)

/-- The named constants of `iomanip.hpp` (every `constexpr inline sgr`), each
with its qualified name, in the order of the header. -/
def fixed_catalog : List (String × sgr) :=
  [("reset", reset), ("text::bold", text.bold), ("text::faint", text.faint),
    ("text::italic", text.italic), ("text::underline", text.underline),
    ("text::double_underline", text.double_underline), ("text::blink", text.blink),
    ("text::blink_fast", text.blink_fast), ("text::invert", text.invert),
    ("text::revert", text.revert), ("text::conceal", text.conceal), ("text::reveal", text.reveal),
    ("text::strike", text.strike), ("text::overline", text.overline),
    ("text::un::bold", text.un.bold), ("text::un::faint", text.un.faint),
    ("text::un::italic", text.un.italic), ("text::un::underline", text.un.underline),
    ("text::un::blink", text.un.blink), ("text::un::invert", text.un.invert),
    ("text::un::conceal", text.un.conceal), ("text::un::strike", text.un.strike),
    ("text::un::overline", text.un.overline), ("fg::regular", fg.regular),
    ("fg::black", fg.black), ("fg::red", fg.red), ("fg::green", fg.green),
    ("fg::yellow", fg.yellow), ("fg::indigo", fg.indigo), ("fg::magenta", fg.magenta),
    ("fg::cyan", fg.cyan), ("fg::white", fg.white), ("fg::gray", fg.gray),
    ("fg::bright::black", fg.bright.black), ("fg::bright::red", fg.bright.red),
    ("fg::bright::green", fg.bright.green), ("fg::bright::yellow", fg.bright.yellow),
    ("fg::bright::indigo", fg.bright.indigo), ("fg::bright::magenta", fg.bright.magenta),
    ("fg::bright::cyan", fg.bright.cyan), ("fg::bright::white", fg.bright.white),
    ("bg::regular", bg.regular), ("bg::black", bg.black), ("bg::red", bg.red),
    ("bg::green", bg.green), ("bg::yellow", bg.yellow), ("bg::indigo", bg.indigo),
    ("bg::magenta", bg.magenta), ("bg::cyan", bg.cyan), ("bg::white", bg.white),
    ("bg::gray", bg.gray), ("bg::bright::black", bg.bright.black),
    ("bg::bright::red", bg.bright.red), ("bg::bright::green", bg.bright.green),
    ("bg::bright::yellow", bg.bright.yellow), ("bg::bright::indigo", bg.bright.indigo),
    ("bg::bright::magenta", bg.bright.magenta), ("bg::bright::cyan", bg.bright.cyan),
    ("bg::bright::white", bg.bright.white), ("underline::regular", underline.regular)]

/-- The pairing by role of the argument-free graphics-rendition macros of
`ansi.h` with the constants of `iomanip.hpp`: macro name, expansion of the
macro, typed entry of the same role (`HIDE` with `conceal`, `RAPID_BLINK` with
`blink_fast`, `NORMAL` with `un::bold`, `BLUE` with `indigo`). -/
def role_pairs : List (String × String × sgr) :=
  [("RESET", ansi_h.RESET, reset), ("BOLD", ansi_h.BOLD, text.bold),
    ("FAINT", ansi_h.FAINT, text.faint), ("ITALIC", ansi_h.ITALIC, text.italic),
    ("UNDERLINE", ansi_h.UNDERLINE, text.underline), ("BLINK", ansi_h.BLINK, text.blink),
    ("RAPID_BLINK", ansi_h.RAPID_BLINK, text.blink_fast), ("INVERT", ansi_h.INVERT, text.invert),
    ("HIDE", ansi_h.HIDE, text.conceal), ("STRIKE", ansi_h.STRIKE, text.strike),
    ("DOUBLE_UNDERLINE", ansi_h.DOUBLE_UNDERLINE, text.double_underline),
    ("OVERLINE", ansi_h.OVERLINE, text.overline), ("NORMAL", ansi_h.NORMAL, text.un.bold),
    ("UN_UNDERLINE", ansi_h.UN_UNDERLINE, text.un.underline),
    ("UN_BLINK", ansi_h.UN_BLINK, text.un.blink),
    ("UN_INVERT", ansi_h.UN_INVERT, text.un.invert), ("REVERT", ansi_h.REVERT, text.revert),
    ("UN_HIDE", ansi_h.UN_HIDE, text.un.conceal), ("REVEAL", ansi_h.REVEAL, text.reveal),
    ("UN_STRIKE", ansi_h.UN_STRIKE, text.un.strike),
    ("UN_OVERLINE", ansi_h.UN_OVERLINE, text.un.overline),
    ("FG_BLACK", ansi_h.FG_BLACK, fg.black), ("FG_RED", ansi_h.FG_RED, fg.red),
    ("FG_GREEN", ansi_h.FG_GREEN, fg.green), ("FG_YELLOW", ansi_h.FG_YELLOW, fg.yellow),
    ("FG_BLUE", ansi_h.FG_BLUE, fg.indigo), ("FG_MAGENTA", ansi_h.FG_MAGENTA, fg.magenta),
    ("FG_CYAN", ansi_h.FG_CYAN, fg.cyan), ("FG_WHITE", ansi_h.FG_WHITE, fg.white),
    ("FG_GRAY", ansi_h.FG_GRAY, fg.gray),
    ("FG_BRIGHT_BLACK", ansi_h.FG_BRIGHT_BLACK, fg.bright.black),
    ("FG_BRIGHT_RED", ansi_h.FG_BRIGHT_RED, fg.bright.red),
    ("FG_BRIGHT_GREEN", ansi_h.FG_BRIGHT_GREEN, fg.bright.green),
    ("FG_BRIGHT_YELLOW", ansi_h.FG_BRIGHT_YELLOW, fg.bright.yellow),
    ("FG_BRIGHT_BLUE", ansi_h.FG_BRIGHT_BLUE, fg.bright.indigo),
    ("FG_BRIGHT_MAGENTA", ansi_h.FG_BRIGHT_MAGENTA, fg.bright.magenta),
    ("FG_BRIGHT_CYAN", ansi_h.FG_BRIGHT_CYAN, fg.bright.cyan),
    ("FG_BRIGHT_WHITE", ansi_h.FG_BRIGHT_WHITE, fg.bright.white),
    ("BG_BLACK", ansi_h.BG_BLACK, bg.black), ("BG_RED", ansi_h.BG_RED, bg.red),
    ("BG_GREEN", ansi_h.BG_GREEN, bg.green), ("BG_YELLOW", ansi_h.BG_YELLOW, bg.yellow),
    ("BG_BLUE", ansi_h.BG_BLUE, bg.indigo), ("BG_MAGENTA", ansi_h.BG_MAGENTA, bg.magenta),
    ("BG_CYAN", ansi_h.BG_CYAN, bg.cyan), ("BG_WHITE", ansi_h.BG_WHITE, bg.white),
    ("BG_GRAY", ansi_h.BG_GRAY, bg.gray),
    ("BG_BRIGHT_BLACK", ansi_h.BG_BRIGHT_BLACK, bg.bright.black),
    ("BG_BRIGHT_RED", ansi_h.BG_BRIGHT_RED, bg.bright.red),
    ("BG_BRIGHT_GREEN", ansi_h.BG_BRIGHT_GREEN, bg.bright.green),
    ("BG_BRIGHT_YELLOW", ansi_h.BG_BRIGHT_YELLOW, bg.bright.yellow),
    ("BG_BRIGHT_BLUE", ansi_h.BG_BRIGHT_BLUE, bg.bright.indigo),
    ("BG_BRIGHT_MAGENTA", ansi_h.BG_BRIGHT_MAGENTA, bg.bright.magenta),
    ("BG_BRIGHT_CYAN", ansi_h.BG_BRIGHT_CYAN, bg.bright.cyan),
    ("BG_BRIGHT_WHITE", ansi_h.BG_BRIGHT_WHITE, bg.bright.white)]

/-- The pairs of differently named constants of `iomanip.hpp` that carry the
same code. -/
def alias_pairs : List (String × String) :=
  [("text::un::bold", "text::un::faint"), ("text::revert", "text::un::invert"),
    ("text::reveal", "text::un::conceal"), ("fg::gray", "fg::bright::black"),
    ("bg::gray", "bg::bright::black")]

/-- Total number of digits in the decimal texts of a parameter list. -/
def digits_total (ps : List byte) : Nat :=
  (ps.map fun b => (decimal b.val).length).sum

end ansi

namespace ansi

/-! ## Shared lemmas on the serializer -/

theorem for_loop_eq {N : Nat} (value : Fin N → byte) :
    ∀ (fuel i : Nat) (os : ostream), N - i ≤ fuel →
      for_loop value fuel i os = os ++ (((List.ofFn value).drop i).map sep_param).flatten := by
  intro fuel
  induction fuel with
  | zero =>
    intro i os h
    have hlen : (List.ofFn value).length ≤ i := by rw [List.length_ofFn]; omega
    simp [for_loop, List.drop_eq_nil_of_le hlen]
  | succ fuel ih =>
    intro i os h
    by_cases hi : i < N
    · have hlen : i < (List.ofFn value).length := by rw [List.length_ofFn]; exact hi
      rw [for_loop, dif_pos hi, ih (i + 1) _ (by omega), List.drop_eq_getElem_cons hlen,
        List.getElem_ofFn]
      simp [ostream.put_char, ostream.put_unsigned, sep_param]
    · have hlen : (List.ofFn value).length ≤ i := by rw [List.length_ofFn]; omega
      simp [for_loop, hi, List.drop_eq_nil_of_le hlen]

theorem intercalate_cons_map {α : Type} (f : α → List Char) (x : α) (xs : List α) :
    List.intercalate [';'] ((x :: xs).map f) = f x ++ (xs.map fun a => ';' :: f a).flatten := by
  induction xs generalizing x with
  | nil => simp [List.intercalate]
  | cons y ys ih =>
    have h := ih y
    simp only [List.intercalate, List.map_cons, List.intersperse, List.flatten] at h ⊢
    simp [h]

theorem operator_shl_pos {N : Nat} (hN : 0 < N) (os : ostream) (obj : csi N) :
    operator_shl os obj =
      os ++ ('\x1b' :: '[' :: (decimal (obj.value ⟨0, hN⟩).val ++
        ((((List.ofFn obj.value).drop 1).map sep_param).flatten ++ [obj.delim]))) := by
  unfold operator_shl
  simp only [gt_iff_lt, hN, dite_true]
  by_cases h1 : 1 < N
  · simp [h1, for_loop_eq obj.value N 1 _ (by omega), ostream.put_str, ostream.put_char,
      ostream.put_unsigned]
  · have hlen : (List.ofFn obj.value).length ≤ 1 := by rw [List.length_ofFn]; omega
    simp [h1, List.drop_eq_nil_of_le hlen, ostream.put_str, ostream.put_char,
      ostream.put_unsigned]

theorem operator_shl_zero (os : ostream) (obj : csi 0) :
    operator_shl os obj = os ++ ['\x1b', '[', obj.delim] := by
  simp [operator_shl, ostream.put_str, ostream.put_char]

theorem ofFn_eq_head_drop {N : Nat} (hN : 0 < N) (p : Fin N → byte) :
    List.ofFn p = p ⟨0, hN⟩ :: (List.ofFn p).drop 1 := by
  have hlen : 0 < (List.ofFn p).length := by rw [List.length_ofFn]; exact hN
  have h := List.drop_eq_getElem_cons hlen
  rw [List.getElem_ofFn] at h
  simpa using h

theorem serialize_brace1 (a : byte) (t : Char) :
    serialize (⟨brace_init 1 [a], t⟩ : csi 1) = '\x1b' :: '[' :: (decimal a.val ++ [t]) := by
  have h := operator_shl_pos (by decide : 0 < 1) [] (⟨brace_init 1 [a], t⟩ : csi 1)
  simpa [serialize, brace_init, sep_param, List.ofFn_succ] using h

theorem serialize_brace2 (a b : byte) (t : Char) :
    serialize (⟨brace_init 2 [a, b], t⟩ : csi 2) =
      '\x1b' :: '[' :: (decimal a.val ++ ';' :: (decimal b.val ++ [t])) := by
  have h := operator_shl_pos (by decide : 0 < 2) [] (⟨brace_init 2 [a, b], t⟩ : csi 2)
  simpa [serialize, brace_init, sep_param, List.ofFn_succ] using h

theorem serialize_brace3 (a b c : byte) (t : Char) :
    serialize (⟨brace_init 3 [a, b, c], t⟩ : csi 3) =
      '\x1b' :: '[' :: (decimal a.val ++ ';' :: (decimal b.val ++
        ';' :: (decimal c.val ++ [t]))) := by
  have h := operator_shl_pos (by decide : 0 < 3) [] (⟨brace_init 3 [a, b, c], t⟩ : csi 3)
  simpa [serialize, brace_init, sep_param, List.ofFn_succ] using h

theorem serialize_brace5 (a b c d e : byte) (t : Char) :
    serialize (⟨brace_init 5 [a, b, c, d, e], t⟩ : csi 5) =
      '\x1b' :: '[' :: (decimal a.val ++ ';' :: (decimal b.val ++ ';' :: (decimal c.val ++
        ';' :: (decimal d.val ++ ';' :: (decimal e.val ++ [t]))))) := by
  have h := operator_shl_pos (by decide : 0 < 5) [] (⟨brace_init 5 [a, b, c, d, e], t⟩ : csi 5)
  simpa [serialize, brace_init, sep_param, List.ofFn_succ] using h

/-- Two texts that agree and whose first `;` ends a `;`-free prefix have the
same prefix and the same remainder. -/
theorem no_sep_split (a b x y : List Char) (ha : ';' ∉ a) (hb : ';' ∉ b)
    (h : a ++ ';' :: x = b ++ ';' :: y) : a = b ∧ x = y := by
  induction a generalizing b with
  | nil =>
    cases b with
    | nil => simpa using h
    | cons c cs =>
      simp at h
      exact absurd (h.1 ▸ List.mem_cons_self _ _) hb
  | cons c cs ih =>
    cases b with
    | nil =>
      simp at h
      exact absurd (h.1 ▸ List.mem_cons_self _ _) ha
    | cons d ds =>
      simp at h
      obtain ⟨h1, h2⟩ := h
      have hrec := ih ds (fun hm => ha (List.mem_cons_of_mem _ hm))
        (fun hm => hb (List.mem_cons_of_mem _ hm)) h2
      exact ⟨by rw [h1, hrec.1], hrec.2⟩

theorem decimal_byte_facts : ∀ b : byte,
    (∀ c ∈ decimal b.val, '0' ≤ c ∧ c ≤ '9')
    ∧ 1 ≤ (decimal b.val).length ∧ (decimal b.val).length ≤ 3
    ∧ ((decimal b.val).head? = some '0' → b = 0)
    ∧ read_decimal (decimal b.val) = b.val
    ∧ decimal b.val ≠ [Char.ofNat b.val] := by
  set_option maxRecDepth 100000 in decide

theorem sep_not_mem_decimal (b : byte) : ';' ∉ decimal b.val := by
  intro hmem
  exact absurd ((decimal_byte_facts b).1 _ hmem).2 (by decide)

theorem decimal_byte_inj (a b : byte) (h : decimal a.val = decimal b.val) : a = b := by
  have ha := (decimal_byte_facts a).2.2.2.2.1
  have hb := (decimal_byte_facts b).2.2.2.2.1
  apply Fin.ext
  rw [← ha, ← hb, h]

end ansi

namespace ansi

/-! ## The wire format -/

/-- C1: for every arity `N ≥ 1`, parameter vector `p` and terminator `t`, the
serialized form of `csi<N>{p, t}` is ESC, `[`, the decimal text of `p[0]`, then
for each further parameter in index order a `;` and its decimal text, then `t`;
that is, the introducer, the decimal texts of `p[0], ..., p[N-1]` joined by `;`
(each parameter once, in construction order), and the terminator. -/
theorem serialize_eq_join (N : Nat) (hN : 1 ≤ N) (p : Fin N → byte) (t : Char) :
    serialize (⟨p, t⟩ : csi N) =
        '\x1b' :: '[' :: (decimal (p ⟨0, hN⟩).val ++
          ((((List.ofFn p).drop 1).map fun b => ';' :: decimal b.val).flatten ++ [t]))
    ∧ serialize (⟨p, t⟩ : csi N) =
        "\x1b[".toList ++
          List.intercalate [';'] ((List.ofFn p).map fun b => decimal b.val) ++ [t] := by
  have h := operator_shl_pos hN [] ⟨p, t⟩
  refine ⟨by simpa [serialize, sep_param] using h, ?_⟩
  rw [ofFn_eq_head_drop hN p, intercalate_cons_map]
  simpa [serialize, sep_param] using h

/-- Instance of C1 at `csi<2>{{3, 7}, 'H'}`. -/
theorem serialize_eq_join_witness :
    1 ≤ 2 ∧ serialize (⟨![3, 7], 'H'⟩ : csi 2) = "\x1b[3;7H".toList :=
  ⟨by decide, (serialize_eq_join 2 (by decide) ![3, 7] 'H').2.trans (by decide)⟩

/-- C2: for every terminator `t` the zero-arity value `csi<0>{t}` serializes to
exactly the three characters ESC, `[`, `t`, with nothing between the introducer
and the terminator; `caret::home()` serializes to `"\x1b[H"`. -/
theorem serialize_zero_arity (t : Char) :
    serialize (csi.init0 t) = ['\x1b', '[', t]
    ∧ (∀ obj : csi 0, serialize obj = ['\x1b', '[', obj.delim])
    ∧ serialize caret.home = "\x1b[H".toList := by
  refine ⟨?_, ?_, ?_⟩
  · simpa [serialize, csi.init0] using operator_shl_zero [] (csi.init0 t)
  · intro obj
    simpa [serialize] using operator_shl_zero [] obj
  · decide

end ansi

namespace ansi

/-! ## Parameters as decimal text -/

/-- C3: for every byte `b` the text emitted for a parameter equal to `b`
consists of ASCII digits only (so it has no sign), has between one and three
characters, starts with `0` only when `b = 0` (and is then exactly `"0"`), reads
back in base ten as `b`, and is not the raw character with code `b`; it is the
text that stands between the introducer and the terminator of a one-parameter
sequence.  At the boundaries `caret::up(0)` gives `"\x1b[0A"` and
`caret::up(255)` gives `"\x1b[255A"`. -/
theorem param_text_decimal (b : byte) :
    (∀ t : Char, serialize (⟨brace_init 1 [b], t⟩ : csi 1) =
        '\x1b' :: '[' :: (decimal b.val ++ [t]))
    ∧ (∀ c ∈ decimal b.val, '0' ≤ c ∧ c ≤ '9')
    ∧ '+' ∉ decimal b.val ∧ '-' ∉ decimal b.val
    ∧ 1 ≤ (decimal b.val).length ∧ (decimal b.val).length ≤ 3
    ∧ ((decimal b.val).head? = some '0' → b = 0)
    ∧ decimal 0 = ['0']
    ∧ read_decimal (decimal b.val) = b.val
    ∧ decimal b.val ≠ [Char.ofNat b.val]
    ∧ serialize (caret.up 0) = "\x1b[0A".toList
    ∧ serialize (caret.up 255) = "\x1b[255A".toList := by
  obtain ⟨hdig, hlo, hhi, hzero, hread, hraw⟩ := decimal_byte_facts b
  refine ⟨?_, hdig, ?_, ?_, hlo, hhi, hzero, by decide, hread, hraw, by decide, by decide⟩
  · intro t
    exact serialize_brace1 b t
  · intro hmem
    exact absurd (hdig _ hmem).1 (by decide)
  · intro hmem
    exact absurd (hdig _ hmem).1 (by decide)

end ansi

namespace ansi

/-! ## The fixed catalog entries -/

/-- C4: for the eight colour names in the order black, red, green, yellow,
indigo, magenta, cyan, white (index `i = 0..7`), the entries serialize to the
introducer, a decimal code and `m`, the code being `30 + i` for `fg`, `40 + i`
for `bg`, `90 + i` for `fg::bright` and `100 + i` for `bg::bright`; `fg::red`
gives `"\x1b[31m"` and `bg::white` gives `"\x1b[47m"`. -/
theorem colour_entries_serialize :
    (∀ i : Fin 8,
      serialize (![fg.black, fg.red, fg.green, fg.yellow, fg.indigo, fg.magenta, fg.cyan,
        fg.white] i) = "\x1b[".toList ++ decimal (30 + i.val) ++ "m".toList)
    ∧ (∀ i : Fin 8,
      serialize (![bg.black, bg.red, bg.green, bg.yellow, bg.indigo, bg.magenta, bg.cyan,
        bg.white] i) = "\x1b[".toList ++ decimal (40 + i.val) ++ "m".toList)
    ∧ (∀ i : Fin 8,
      serialize (![fg.bright.black, fg.bright.red, fg.bright.green, fg.bright.yellow,
        fg.bright.indigo, fg.bright.magenta, fg.bright.cyan, fg.bright.white] i) =
          "\x1b[".toList ++ decimal (90 + i.val) ++ "m".toList)
    ∧ (∀ i : Fin 8,
      serialize (![bg.bright.black, bg.bright.red, bg.bright.green, bg.bright.yellow,
        bg.bright.indigo, bg.bright.magenta, bg.bright.cyan, bg.bright.white] i) =
          "\x1b[".toList ++ decimal (100 + i.val) ++ "m".toList)
    ∧ serialize fg.red = "\x1b[31m".toList
    ∧ serialize bg.white = "\x1b[47m".toList := by
  set_option maxRecDepth 100000 in decide

/-- C5: every fixed text attribute serializes to the introducer, its code in
decimal and `m`: bold 1, faint 2, italic 3, underline 4, blink 5, blink_fast 6,
invert 7, conceal 8, strike 9, double_underline 21, overline 53; the undo
entries carry the codes that switch the attribute off: `un::bold` 22,
`un::faint` 22, `un::italic` 23, `un::underline` 24, `un::blink` 25,
`un::invert` and `text::revert` 27, `un::conceal` and `text::reveal` 28,
`un::strike` 29, `un::overline` 55. -/
theorem text_entries_serialize :
    serialize text.bold = "\x1b[".toList ++ decimal 1 ++ "m".toList
    ∧ serialize text.faint = "\x1b[".toList ++ decimal 2 ++ "m".toList
    ∧ serialize text.italic = "\x1b[".toList ++ decimal 3 ++ "m".toList
    ∧ serialize text.underline = "\x1b[".toList ++ decimal 4 ++ "m".toList
    ∧ serialize text.blink = "\x1b[".toList ++ decimal 5 ++ "m".toList
    ∧ serialize text.blink_fast = "\x1b[".toList ++ decimal 6 ++ "m".toList
    ∧ serialize text.invert = "\x1b[".toList ++ decimal 7 ++ "m".toList
    ∧ serialize text.conceal = "\x1b[".toList ++ decimal 8 ++ "m".toList
    ∧ serialize text.strike = "\x1b[".toList ++ decimal 9 ++ "m".toList
    ∧ serialize text.double_underline = "\x1b[".toList ++ decimal 21 ++ "m".toList
    ∧ serialize text.overline = "\x1b[".toList ++ decimal 53 ++ "m".toList
    ∧ serialize text.un.bold = "\x1b[22m".toList
    ∧ serialize text.un.faint = "\x1b[22m".toList
    ∧ serialize text.un.italic = "\x1b[23m".toList
    ∧ serialize text.un.underline = "\x1b[24m".toList
    ∧ serialize text.un.blink = "\x1b[25m".toList
    ∧ serialize text.un.invert = "\x1b[27m".toList
    ∧ serialize text.revert = "\x1b[27m".toList
    ∧ serialize text.un.conceal = "\x1b[28m".toList
    ∧ serialize text.reveal = "\x1b[28m".toList
    ∧ serialize text.un.strike = "\x1b[29m".toList
    ∧ serialize text.un.overline = "\x1b[55m".toList
    ∧ serialize text.bold = "\x1b[1m".toList
    ∧ serialize text.double_underline = "\x1b[21m".toList
    ∧ serialize text.overline = "\x1b[53m".toList := by
  decide

/-- C6: the global reset entry, written with an empty parameter list, has the
single parameter 0 and serializes to `"\x1b[0m"`, not to `"\x1b[m"`; the
restore-default pseudo-colours serialize to `"\x1b[39m"` (`fg::regular`),
`"\x1b[49m"` (`bg::regular`) and `"\x1b[59m"` (`underline::regular`). -/
theorem reset_and_regular_serialize :
    reset.value 0 = 0
    ∧ serialize reset = "\x1b[0m".toList
    ∧ serialize reset ≠ "\x1b[m".toList
    ∧ serialize fg.regular = "\x1b[39m".toList
    ∧ serialize bg.regular = "\x1b[49m".toList
    ∧ serialize underline.regular = "\x1b[59m".toList := by
  decide

end ansi

namespace ansi

/-! ## The factories -/

/-- C7: for every byte `n` each single-count factory returns a one-parameter
value whose parameter is `n` itself (nothing is rejected or clamped) and whose
serialized form is the introducer, `n` in decimal and the terminator: `A` for
`caret::up`, `B` for `caret::down`, `C` for `caret::forward`, `D` for
`caret::back`, `G` for the one-argument `caret::move`, `E` for `line::next`, `F`
for `line::prev`, `S` for `scroll::up`, `T` for `scroll::down`; `caret::up(5)`
gives `"\x1b[5A"`. -/
theorem single_count_factories (n : byte) :
    ((caret.up n).value 0 = n
      ∧ serialize (caret.up n) = "\x1b[".toList ++ decimal n.val ++ ['A'])
    ∧ ((caret.down n).value 0 = n
      ∧ serialize (caret.down n) = "\x1b[".toList ++ decimal n.val ++ ['B'])
    ∧ ((caret.forward n).value 0 = n
      ∧ serialize (caret.forward n) = "\x1b[".toList ++ decimal n.val ++ ['C'])
    ∧ ((caret.back n).value 0 = n
      ∧ serialize (caret.back n) = "\x1b[".toList ++ decimal n.val ++ ['D'])
    ∧ ((caret.move n).value 0 = n
      ∧ serialize (caret.move n) = "\x1b[".toList ++ decimal n.val ++ ['G'])
    ∧ ((line.next n).value 0 = n
      ∧ serialize (line.next n) = "\x1b[".toList ++ decimal n.val ++ ['E'])
    ∧ ((line.prev n).value 0 = n
      ∧ serialize (line.prev n) = "\x1b[".toList ++ decimal n.val ++ ['F'])
    ∧ ((scroll.up n).value 0 = n
      ∧ serialize (scroll.up n) = "\x1b[".toList ++ decimal n.val ++ ['S'])
    ∧ ((scroll.down n).value 0 = n
      ∧ serialize (scroll.down n) = "\x1b[".toList ++ decimal n.val ++ ['T'])
    ∧ serialize (caret.up 5) = "\x1b[5A".toList := by
  refine ⟨⟨rfl, ?_⟩, ⟨rfl, ?_⟩, ⟨rfl, ?_⟩, ⟨rfl, ?_⟩, ⟨rfl, ?_⟩, ⟨rfl, ?_⟩, ⟨rfl, ?_⟩,
    ⟨rfl, ?_⟩, ⟨rfl, ?_⟩, by decide⟩
  · simp [caret.up, serialize_brace1]
  · simp [caret.down, serialize_brace1]
  · simp [caret.forward, serialize_brace1]
  · simp [caret.back, serialize_brace1]
  · simp [caret.move, serialize_brace1]
  · simp [line.next, serialize_brace1]
  · simp [line.prev, serialize_brace1]
  · simp [scroll.up, serialize_brace1]
  · simp [scroll.down, serialize_brace1]

/-- C8: for every pair of bytes, `caret::move(row, column)` serializes to the
introducer, the row in decimal, one `;`, the column in decimal and `H`: row
first, column second, two parameters and a single separator;
`caret::move(3, 7)` gives `"\x1b[3;7H"`, and `caret::move(r, c)` coincides with
`caret::move(c, r)`, as a value or as text, only when `r = c`. -/
theorem caret_move_row_column (row column : byte) :
    serialize (caret.move2 row column) =
        "\x1b[".toList ++ decimal row.val ++ ";".toList ++ decimal column.val ++ "H".toList
    ∧ (caret.move2 row column).value 0 = row
    ∧ (caret.move2 row column).value 1 = column
    ∧ (serialize (caret.move2 row column)).count ';' = 1
    ∧ serialize (caret.move2 3 7) = "\x1b[3;7H".toList
    ∧ (serialize (caret.move2 row column) = serialize (caret.move2 column row) ↔ row = column)
    ∧ (caret.move2 row column = caret.move2 column row ↔ row = column) := by
  have htext : serialize (caret.move2 row column) =
      "\x1b[".toList ++ decimal row.val ++ ";".toList ++ decimal column.val ++ "H".toList := by
    simp [caret.move2, serialize_brace2]
  have hinj : serialize (caret.move2 row column) = serialize (caret.move2 column row) →
      row = column := by
    intro h
    simp only [caret.move2, serialize_brace2, List.cons.injEq, true_and] at h
    exact decimal_byte_inj _ _
      (no_sep_split _ _ _ _ (sep_not_mem_decimal row) (sep_not_mem_decimal column) h).1
  refine ⟨htext, rfl, rfl, ?_, by decide, ⟨hinj, fun h => by rw [h]⟩,
    ⟨fun h => hinj (by rw [h]), fun h => by rw [h]⟩⟩
  rw [htext]
  have hr := List.count_eq_zero_of_not_mem (sep_not_mem_decimal row)
  have hc := List.count_eq_zero_of_not_mem (sep_not_mem_decimal column)
  simp [List.count_append, hr, hc]

end ansi

namespace ansi

/-- C9: for all bytes `c`, `r`, `g`, `b` and each target with selector `S`
(`fg` 38, `bg` 48, `underline` 58), `set(c)` serializes to the introducer, `S`,
`;5;`, `c` in decimal and `m`, and `rgb(r, g, b)` to the introducer, `S`, `;2;`
and the three channels in the order red, green, blue separated by `;`, then `m`.
The two leading mode-selector parameters are constants, independent of the
arguments.  `fg::rgb(1,2,3)` gives `"\x1b[38;2;1;2;3m"`, `bg::set(200)` gives
`"\x1b[48;5;200m"`, `underline::rgb(10,20,30)` gives `"\x1b[58;2;10;20;30m"`. -/
theorem colour_factories (c r g b : byte) :
    (serialize (fg.set c) =
        "\x1b[".toList ++ decimal 38 ++ ";5;".toList ++ decimal c.val ++ "m".toList
      ∧ serialize (bg.set c) =
        "\x1b[".toList ++ decimal 48 ++ ";5;".toList ++ decimal c.val ++ "m".toList
      ∧ serialize (underline.set c) =
        "\x1b[".toList ++ decimal 58 ++ ";5;".toList ++ decimal c.val ++ "m".toList)
    ∧ (serialize (fg.rgb r g b) =
        "\x1b[".toList ++ decimal 38 ++ ";2;".toList ++ decimal r.val ++ ";".toList ++
          decimal g.val ++ ";".toList ++ decimal b.val ++ "m".toList
      ∧ serialize (bg.rgb r g b) =
        "\x1b[".toList ++ decimal 48 ++ ";2;".toList ++ decimal r.val ++ ";".toList ++
          decimal g.val ++ ";".toList ++ decimal b.val ++ "m".toList
      ∧ serialize (underline.rgb r g b) =
        "\x1b[".toList ++ decimal 58 ++ ";2;".toList ++ decimal r.val ++ ";".toList ++
          decimal g.val ++ ";".toList ++ decimal b.val ++ "m".toList)
    ∧ ((fg.set c).value 0 = 38 ∧ (fg.set c).value 1 = 5 ∧ (fg.set c).value 2 = c
      ∧ (bg.set c).value 0 = 48 ∧ (bg.set c).value 1 = 5 ∧ (bg.set c).value 2 = c
      ∧ (underline.set c).value 0 = 58 ∧ (underline.set c).value 1 = 5
      ∧ (underline.set c).value 2 = c)
    ∧ ((fg.rgb r g b).value = ![38, 2, r, g, b]
      ∧ (bg.rgb r g b).value = ![48, 2, r, g, b]
      ∧ (underline.rgb r g b).value = ![58, 2, r, g, b])
    ∧ serialize (fg.rgb 1 2 3) = "\x1b[38;2;1;2;3m".toList
    ∧ serialize (bg.set 200) = "\x1b[48;5;200m".toList
    ∧ serialize (underline.rgb 10 20 30) = "\x1b[58;2;10;20;30m".toList := by
  have e38 : ((38 : byte) : Nat) = 38 := rfl
  have e48 : ((48 : byte) : Nat) = 48 := rfl
  have e58 : ((58 : byte) : Nat) = 58 := rfl
  have e5 : ((5 : byte) : Nat) = 5 := rfl
  have e2 : ((2 : byte) : Nat) = 2 := rfl
  have h5 : decimal 5 = ['5'] := by decide
  have h2 : decimal 2 = ['2'] := by decide
  have hvec : ∀ s : byte, brace_init 5 [s, 2, r, g, b] = ![s, 2, r, g, b] := by
    intro s
    funext i
    fin_cases i <;> rfl
  refine ⟨⟨?_, ?_, ?_⟩, ⟨?_, ?_, ?_⟩,
    ⟨rfl, rfl, rfl, rfl, rfl, rfl, rfl, rfl, rfl⟩, ⟨hvec 38, hvec 48, hvec 58⟩,
    by decide, by decide, by decide⟩
  · simp [fg.set, serialize_brace3, e38, e5, h5]
  · simp [bg.set, serialize_brace3, e48, e5, h5]
  · simp [underline.set, serialize_brace3, e58, e5, h5]
  · simp [fg.rgb, serialize_brace5, e38, e2, h2]
  · simp [bg.rgb, serialize_brace5, e48, e2, h2]
  · simp [underline.rgb, serialize_brace5, e58, e2, h2]

/-- C10: for every erase extent `m`, `erase::all(m)` serializes to the
introducer, `k` in decimal and `J`, and `erase::line(m)` to the introducer, `k`
in decimal and `K`, where `k` is 0 for `from_caret`, 1 for `to_caret`, 2 for
`whole` and 3 for `scrollback`. -/
theorem erase_factories (m : erase.erase_mode) :
    serialize (erase.all m) =
        "\x1b[".toList ++ decimal (match m with
          | .from_caret => 0 | .to_caret => 1 | .whole => 2 | .scrollback => 3) ++ "J".toList
    ∧ serialize (erase.line m) =
        "\x1b[".toList ++ decimal (match m with
          | .from_caret => 0 | .to_caret => 1 | .whole => 2 | .scrollback => 3) ++ "K".toList
    ∧ serialize (erase.all erase.erase_mode.from_caret) = "\x1b[0J".toList
    ∧ serialize (erase.all erase.erase_mode.to_caret) = "\x1b[1J".toList
    ∧ serialize (erase.all erase.erase_mode.whole) = "\x1b[2J".toList
    ∧ serialize (erase.all erase.erase_mode.scrollback) = "\x1b[3J".toList
    ∧ serialize (erase.line erase.erase_mode.from_caret) = "\x1b[0K".toList
    ∧ serialize (erase.line erase.erase_mode.to_caret) = "\x1b[1K".toList
    ∧ serialize (erase.line erase.erase_mode.whole) = "\x1b[2K".toList
    ∧ serialize (erase.line erase.erase_mode.scrollback) = "\x1b[3K".toList := by
  cases m <;> decide

end ansi

namespace ansi

/-! ## Shared lemmas on composition -/

theorem serialize_eq_param_text {N : Nat} (obj : csi N) :
    serialize obj = '\x1b' :: '[' :: (param_text (List.ofFn obj.value) ++ [obj.delim]) := by
  rcases Nat.eq_zero_or_pos N with h0 | hpos
  · subst h0
    simpa [serialize, param_text, List.intercalate] using operator_shl_zero [] obj
  · have h := operator_shl_pos hpos [] obj
    rw [param_text, ofFn_eq_head_drop hpos obj.value, intercalate_cons_map]
    simpa [serialize, sep_param] using h

theorem operator_shl_append {N : Nat} (os : ostream) (obj : csi N) :
    operator_shl os obj = os ++ serialize obj := by
  rcases Nat.eq_zero_or_pos N with h0 | hpos
  · subst h0
    rw [serialize, operator_shl_zero, operator_shl_zero]
    simp
  · rw [serialize, operator_shl_pos hpos, operator_shl_pos hpos]
    simp

theorem insert_all_eq (vs : List any_csi) :
    ∀ os : ostream, insert_all os vs = os ++ (vs.map render).flatten := by
  induction vs with
  | nil => intro os; simp [insert_all]
  | cons v vs ih =>
    intro os
    have h := ih (operator_shl os v.2)
    simp only [insert_all, List.foldl_cons] at h ⊢
    rw [h, operator_shl_append]
    simp [render]

end ansi

namespace ansi

/-! ## Composition and statelessness -/

/-- C11: for every sink content `s` and every finite list of sequence values of
any arities, inserting them one after the other leaves exactly `s` followed by
the serialized forms in order; `s` stays as a prefix, every sequence keeps its
own introducer and terminator, and splitting the list at any point and joining
the two results gives the same text; bold followed by `fg::red` gives
`"\x1b[1m\x1b[31m"`. -/
theorem insert_all_concat (s : ostream) (vs ws : List any_csi) :
    insert_all s vs = s ++ (vs.map render).flatten
    ∧ s <+: insert_all s vs
    ∧ (∀ v ∈ vs, render v = '\x1b' :: '[' :: (param_text (params v) ++ [v.2.delim]))
    ∧ insert_all s (vs ++ ws) = insert_all (insert_all s vs) ws
    ∧ insert_all [] (vs ++ ws) = insert_all [] vs ++ insert_all [] ws
    ∧ insert_all s (vs ++ ws) = s ++ insert_all [] vs ++ insert_all [] ws
    ∧ insert_all [] [⟨1, text.bold⟩, ⟨1, fg.red⟩] = "\x1b[1m\x1b[31m".toList := by
  refine ⟨insert_all_eq vs s, ?_, ?_, ?_, ?_, ?_, by decide⟩
  · rw [insert_all_eq]
    exact List.prefix_append _ _
  · intro v _
    exact serialize_eq_param_text v.2
  · simp [insert_all]
  · simp [insert_all_eq]
  · simp [insert_all_eq]

theorem for_loop_fmt_default {N : Nat} (value : Fin N → byte) (fill : Char) (left : Bool) :
    ∀ (fuel i : Nat) (buf : List Char),
      for_loop_fmt value fuel i ⟨buf, basefield.dec, 0, fill, left⟩ =
        ⟨for_loop value fuel i buf, basefield.dec, 0, fill, left⟩ := by
  intro fuel
  induction fuel with
  | zero => intro i buf; rfl
  | succ fuel ih =>
    intro i buf
    by_cases hi : i < N
    · rw [for_loop_fmt, for_loop, dif_pos hi, dif_pos hi, ← ih]
      simp [fmt_ostream.put_char, fmt_ostream.put_unsigned, fmt_ostream.insert,
        fmt_ostream.pad, number_text, ostream.put_char, ostream.put_unsigned]
    · rw [for_loop_fmt, for_loop, dif_neg hi, dif_neg hi]

theorem operator_shl_fmt_default (buf : List Char) (fill : Char) (left : Bool) {N : Nat}
    (obj : csi N) :
    operator_shl_fmt ⟨buf, basefield.dec, 0, fill, left⟩ obj =
      ⟨operator_shl buf obj, basefield.dec, 0, fill, left⟩ := by
  have hstr : (⟨buf, basefield.dec, 0, fill, left⟩ : fmt_ostream).put_str "\x1b[" =
      ⟨ostream.put_str buf "\x1b[", basefield.dec, 0, fill, left⟩ := by
    simp [fmt_ostream.put_str, fmt_ostream.insert, fmt_ostream.pad, ostream.put_str]
  have hnum : ∀ (b : List Char) (n : Nat),
      (⟨b, basefield.dec, 0, fill, left⟩ : fmt_ostream).put_unsigned n =
        ⟨ostream.put_unsigned b n, basefield.dec, 0, fill, left⟩ := by
    intro b n
    simp [fmt_ostream.put_unsigned, fmt_ostream.insert, fmt_ostream.pad, number_text,
      ostream.put_unsigned]
  have hchr : ∀ (b : List Char) (c : Char),
      (⟨b, basefield.dec, 0, fill, left⟩ : fmt_ostream).put_char c =
        ⟨ostream.put_char b c, basefield.dec, 0, fill, left⟩ := by
    intro b c
    simp [fmt_ostream.put_char, fmt_ostream.insert, fmt_ostream.pad, ostream.put_char]
  unfold operator_shl_fmt operator_shl
  simp only [hstr]
  by_cases h0 : N > 0
  · by_cases h1 : N > 1
    · simp only [h0, h1, dite_true, if_true, hnum, for_loop_fmt_default, hchr]
    · simp only [h0, h1, dite_true, if_false, hnum, hchr]
  · have h1 : ¬ N > 1 := by omega
    simp only [h0, h1, dite_false, if_false, hchr]

theorem insert_prepend (p : List Char) (os : fmt_ostream) (seq : List Char) :
    (fmt_ostream.prepend p os).insert seq = fmt_ostream.prepend p (os.insert seq) := by
  simp [fmt_ostream.prepend, fmt_ostream.insert, fmt_ostream.pad]

theorem for_loop_fmt_prepend {N : Nat} (value : Fin N → byte) (p : List Char) :
    ∀ (fuel i : Nat) (os : fmt_ostream),
      for_loop_fmt value fuel i (fmt_ostream.prepend p os) =
        fmt_ostream.prepend p (for_loop_fmt value fuel i os) := by
  intro fuel
  induction fuel with
  | zero => intro i os; rfl
  | succ fuel ih =>
    intro i os
    by_cases hi : i < N
    · rw [for_loop_fmt, for_loop_fmt, dif_pos hi, dif_pos hi, ← ih]
      simp only [fmt_ostream.put_char, fmt_ostream.put_unsigned, insert_prepend]
      rfl
    · rw [for_loop_fmt, for_loop_fmt, dif_neg hi, dif_neg hi]

theorem operator_shl_fmt_prepend (p : List Char) (os : fmt_ostream) {N : Nat} (obj : csi N) :
    operator_shl_fmt (fmt_ostream.prepend p os) obj =
      fmt_ostream.prepend p (operator_shl_fmt os obj) := by
  have hnum : ∀ (o : fmt_ostream) (n : Nat),
      (fmt_ostream.prepend p o).put_unsigned n = fmt_ostream.prepend p (o.put_unsigned n) := by
    intro o n
    simp only [fmt_ostream.put_unsigned, insert_prepend]
    rfl
  unfold operator_shl_fmt
  simp only [fmt_ostream.put_str, fmt_ostream.put_char, insert_prepend]
  by_cases h0 : N > 0
  · by_cases h1 : N > 1
    · simp only [h0, h1, dite_true, if_true, hnum, for_loop_fmt_prepend, insert_prepend]
    · simp only [h0, h1, dite_true, if_false, hnum, insert_prepend]
  · have h1 : ¬ N > 1 := by omega
    simp only [h0, h1, dite_false, if_false, insert_prepend]

theorem appended_eq_of_state (os : fmt_ostream) {N : Nat} (obj : csi N) :
    appended os obj = (operator_shl_fmt ⟨[], os.base, os.width, os.fill, os.left⟩ obj).buf := by
  have hos : os = fmt_ostream.prepend os.buf ⟨[], os.base, os.width, os.fill, os.left⟩ := by
    simp [fmt_ostream.prepend]
  rw [appended]
  conv_lhs => rw [hos, operator_shl_fmt_prepend]
  simp [fmt_ostream.prepend]

theorem for_loop_fmt_flags {N : Nat} (value : Fin N → byte) :
    ∀ (fuel i : Nat) (os : fmt_ostream),
      (for_loop_fmt value fuel i os).base = os.base
      ∧ (for_loop_fmt value fuel i os).fill = os.fill
      ∧ (for_loop_fmt value fuel i os).left = os.left := by
  intro fuel
  induction fuel with
  | zero => intro i os; exact ⟨rfl, rfl, rfl⟩
  | succ fuel ih =>
    intro i os
    by_cases hi : i < N
    · rw [for_loop_fmt, dif_pos hi]
      exact ih (i + 1) _
    · rw [for_loop_fmt, dif_neg hi]
      exact ⟨rfl, rfl, rfl⟩

theorem operator_shl_fmt_flags (os : fmt_ostream) {N : Nat} (obj : csi N) :
    (operator_shl_fmt os obj).width = 0
    ∧ (operator_shl_fmt os obj).base = os.base
    ∧ (operator_shl_fmt os obj).fill = os.fill
    ∧ (operator_shl_fmt os obj).left = os.left := by
  unfold operator_shl_fmt
  by_cases h0 : N > 0
  · by_cases h1 : N > 1
    · simp only [h0, h1, dite_true, if_true]
      have h := for_loop_fmt_flags obj.value N 1
        ((os.put_str "\x1b[").put_unsigned (obj.value ⟨0, h0⟩).val)
      exact ⟨rfl, h.1, h.2.1, h.2.2⟩
    · simp only [h0, h1, dite_true, if_false]
      exact ⟨rfl, rfl, rfl, rfl⟩
  · have h1 : ¬ N > 1 := by omega
    simp only [h0, h1, dite_false, if_false]
    exact ⟨rfl, rfl, rfl, rfl⟩

/-- C12, as stated, fails: the operator reads the formatting state of the stream
and consumes the field width.  On a stream with width 8 and fill `*`,
`caret::up(5)` appends `"******\x1b[5A"` the first time and `"\x1b[5A"` the
second time in a row; on a stream in hexadecimal base `caret::up(255)` appends
`"\x1b[ffA"`, on a fresh stream `"\x1b[255A"`.  So the appended text is not the
same for any two sinks, not the same twice in a row, and not a function of the
parameters and the terminator only. -/
theorem operator_shl_fmt_counterexample :
    appended ⟨[], basefield.dec, 8, '*', false⟩ (caret.up 5) = "******\x1b[5A".toList
    ∧ appended (operator_shl_fmt ⟨[], basefield.dec, 8, '*', false⟩ (caret.up 5)) (caret.up 5) =
        "\x1b[5A".toList
    ∧ appended ⟨[], basefield.hex, 0, ' ', false⟩ (caret.up 255) = "\x1b[ffA".toList
    ∧ appended (fmt_ostream.fresh []) (caret.up 255) = "\x1b[255A".toList
    ∧ ¬ (∀ (v : csi 1) (s : fmt_ostream), appended (operator_shl_fmt s v) v = appended s v)
    ∧ ¬ (∀ (v : csi 1) (s1 s2 : fmt_ostream), appended s1 v = appended s2 v)
    ∧ ¬ (∃ f : List byte → Char → List Char, ∀ (v : csi 1) (s : fmt_ostream),
          appended s v = f (List.ofFn v.value) v.delim) := by
  have hw1 : appended ⟨[], basefield.dec, 8, '*', false⟩ (caret.up 5) =
      "******\x1b[5A".toList := by decide
  have hw2 : appended (operator_shl_fmt ⟨[], basefield.dec, 8, '*', false⟩ (caret.up 5))
      (caret.up 5) = "\x1b[5A".toList := by decide
  have hx : appended ⟨[], basefield.hex, 0, ' ', false⟩ (caret.up 255) =
      "\x1b[ffA".toList := by decide
  have hd : appended (fmt_ostream.fresh []) (caret.up 255) = "\x1b[255A".toList := by decide
  refine ⟨hw1, hw2, hx, hd, ?_, ?_, ?_⟩
  · intro h
    have e := h (caret.up 5) ⟨[], basefield.dec, 8, '*', false⟩
    rw [hw1, hw2] at e
    exact absurd e (by decide)
  · intro h
    have e := h (caret.up 255) ⟨[], basefield.hex, 0, ' ', false⟩ (fmt_ostream.fresh [])
    rw [hx, hd] at e
    exact absurd e (by decide)
  · rintro ⟨f, hf⟩
    have e1 := hf (caret.up 255) ⟨[], basefield.hex, 0, ' ', false⟩
    have e2 := hf (caret.up 255) (fmt_ostream.fresh [])
    rw [hx] at e1
    rw [hd, ← e1] at e2
    exact absurd e2 (by decide)

/-- C12, amended: the operator keeps no state of its own, and what it appends
depends on the sequence value and on the formatting state of the stream, never
on the content of the sink.  For every sequence value `v` and any two streams in
the default formatting state (decimal base, field width zero), whatever they
already hold, the appended text is the same, namely the serialized form of `v`,
a function of the parameters and the terminator only; the operator leaves that
state as it was, so inserting `v` twice in a row appends the same text twice.
In every state the operator leaves the field width at zero and the base, the
fill character and the adjustment unchanged. -/
theorem operator_shl_fmt_stateless {N : Nat} (v : csi N) (s1 s2 : fmt_ostream)
    (h1 : s1.base = basefield.dec ∧ s1.width = 0)
    (h2 : s2.base = basefield.dec ∧ s2.width = 0) :
    appended s1 v = appended s2 v
    ∧ appended s1 v = serialize v
    ∧ appended s1 v = '\x1b' :: '[' :: (param_text (List.ofFn v.value) ++ [v.delim])
    ∧ operator_shl_fmt s1 v = ⟨s1.buf ++ serialize v, s1.base, s1.width, s1.fill, s1.left⟩
    ∧ appended (operator_shl_fmt s1 v) v = appended s1 v
    ∧ (operator_shl_fmt (operator_shl_fmt s1 v) v).buf = s1.buf ++ serialize v ++ serialize v
    ∧ (∀ os os' : fmt_ostream, os.base = os'.base → os.width = os'.width →
        os.fill = os'.fill → os.left = os'.left → appended os v = appended os' v)
    ∧ (∀ os : fmt_ostream,
        (operator_shl_fmt os v).width = 0 ∧ (operator_shl_fmt os v).base = os.base
        ∧ (operator_shl_fmt os v).fill = os.fill ∧ (operator_shl_fmt os v).left = os.left) := by
  have hdef : ∀ s : fmt_ostream, s.base = basefield.dec ∧ s.width = 0 →
      operator_shl_fmt s v = ⟨s.buf ++ serialize v, s.base, s.width, s.fill, s.left⟩ := by
    intro s hs
    obtain ⟨buf, base, width, fill, left⟩ := s
    obtain ⟨hb, hw⟩ := hs
    simp only at hb hw
    subst hb
    subst hw
    rw [operator_shl_fmt_default, operator_shl_append]
  have happ : ∀ s : fmt_ostream, s.base = basefield.dec ∧ s.width = 0 →
      appended s v = serialize v := by
    intro s hs
    rw [appended, hdef s hs]
    simp
  have hnext : (operator_shl_fmt s1 v).base = basefield.dec ∧ (operator_shl_fmt s1 v).width = 0 := by
    rw [hdef s1 h1]
    exact h1
  refine ⟨by rw [happ s1 h1, happ s2 h2], happ s1 h1, ?_, hdef s1 h1, ?_, ?_, ?_,
    fun os => operator_shl_fmt_flags os v⟩
  · rw [happ s1 h1, serialize_eq_param_text]
  · rw [happ _ hnext, happ s1 h1]
  · rw [hdef _ hnext, hdef s1 h1]
  · intro os os' hb hw hf hl
    rw [appended_eq_of_state os, appended_eq_of_state os', hb, hw, hf, hl]

/-- Instance of the amended C12 at `caret::up(5)`, an empty fresh stream and a
fresh stream that already holds `"abc"`. -/
theorem operator_shl_fmt_stateless_witness :
    ((fmt_ostream.fresh []).base = basefield.dec ∧ (fmt_ostream.fresh []).width = 0)
    ∧ ((fmt_ostream.fresh "abc".toList).base = basefield.dec
        ∧ (fmt_ostream.fresh "abc".toList).width = 0)
    ∧ appended (fmt_ostream.fresh []) (caret.up 5) =
        appended (fmt_ostream.fresh "abc".toList) (caret.up 5)
    ∧ appended (fmt_ostream.fresh []) (caret.up 5) = "\x1b[5A".toList :=
  ⟨by decide, by decide,
    (operator_shl_fmt_stateless (caret.up 5) (fmt_ostream.fresh [])
      (fmt_ostream.fresh "abc".toList) (by decide) (by decide)).1,
    (operator_shl_fmt_stateless (caret.up 5) (fmt_ostream.fresh [])
      (fmt_ostream.fresh "abc".toList) (by decide) (by decide)).2.1.trans (by decide)⟩

end ansi

namespace ansi

/-! ## Arity and separators -/

theorem count_sep_tail (ps : List byte) :
    ((ps.map fun b => ';' :: decimal b.val).flatten).count ';' = ps.length := by
  induction ps with
  | nil => simp
  | cons p ps ih =>
    have hp := List.count_eq_zero_of_not_mem (sep_not_mem_decimal p)
    simp only [List.map_cons, List.flatten_cons, List.count_append, List.count_cons_self, hp, ih,
      List.length_cons]
    omega

theorem count_sep_param_text (ps : List byte) :
    (param_text ps).count ';' = ps.length - 1 := by
  cases ps with
  | nil => simp [param_text, List.intercalate]
  | cons p ps =>
    have hp := List.count_eq_zero_of_not_mem (sep_not_mem_decimal p)
    rw [param_text, intercalate_cons_map, List.count_append, hp, count_sep_tail]
    simp

theorem count_sep_render (v : any_csi) (h : v.2.delim ≠ ';') :
    (render v).count ';' = arity v - 1 := by
  have hne : (';' == v.2.delim) = false := by
    simpa [beq_eq_false_iff_ne] using fun e : ';' = v.2.delim => h e.symm
  rw [render, serialize_eq_param_text, List.count_cons, List.count_cons, List.count_append,
    count_sep_param_text, List.length_ofFn]
  simp [arity, List.count_cons, hne, h]

end ansi

namespace ansi

/-- C13: every value carries exactly as many parameters as its arity, and the
catalog and the factories produce the arities 1 for every fixed entry and every
single-count, erase and scroll factory, 2 for `caret::move(row, column)`, 0 for
`caret::home()`, 3 for the `set` factories and 5 for the `rgb` factories; the
serialized form of a value whose terminator is not `;` (as for all of these)
contains exactly `arity - 1` characters `;` when the arity is at least one and
none when it is zero. -/
theorem arity_and_separators (n c r g b row column : byte) (m : erase.erase_mode) :
    (∀ v : any_csi, (params v).length = arity v)
    ∧ (∀ v : any_csi, v.2.delim ≠ ';' → (render v).count ';' = arity v - 1)
    ∧ (∀ e ∈ fixed_catalog,
        arity ⟨_, e.2⟩ = 1 ∧ (params ⟨_, e.2⟩).length = 1 ∧ (render ⟨_, e.2⟩).count ';' = 0)
    ∧ (∀ v ∈ ([⟨_, caret.up n⟩, ⟨_, caret.down n⟩, ⟨_, caret.forward n⟩, ⟨_, caret.back n⟩,
          ⟨_, caret.move n⟩, ⟨_, line.next n⟩, ⟨_, line.prev n⟩, ⟨_, scroll.up n⟩,
          ⟨_, scroll.down n⟩, ⟨_, erase.all m⟩, ⟨_, erase.line m⟩] : List any_csi),
        arity v = 1 ∧ (params v).length = 1 ∧ (render v).count ';' = 0)
    ∧ (arity ⟨_, caret.move2 row column⟩ = 2
        ∧ params ⟨_, caret.move2 row column⟩ = [row, column]
        ∧ (render ⟨_, caret.move2 row column⟩).count ';' = 1)
    ∧ (arity ⟨_, caret.home⟩ = 0 ∧ params ⟨_, caret.home⟩ = []
        ∧ (render ⟨_, caret.home⟩).count ';' = 0)
    ∧ (∀ v ∈ ([⟨_, fg.set c⟩, ⟨_, bg.set c⟩, ⟨_, underline.set c⟩] : List any_csi),
        arity v = 3 ∧ (params v).length = 3 ∧ (render v).count ';' = 2)
    ∧ (∀ v ∈ ([⟨_, fg.rgb r g b⟩, ⟨_, bg.rgb r g b⟩, ⟨_, underline.rgb r g b⟩] :
          List any_csi),
        arity v = 5 ∧ (params v).length = 5 ∧ (render v).count ';' = 4) := by
  have hlen : ∀ v : any_csi, (params v).length = arity v := by
    intro v
    simp [params, arity]
  have hd : ∀ {N : Nat} {p : Fin N → byte} {t : Char}, t ≠ ';' →
      (⟨N, ⟨p, t⟩⟩ : any_csi).2.delim ≠ ';' := fun h => h
  refine ⟨hlen, count_sep_render, ?_, ?_, ?_, ?_, ?_, ?_⟩
  · set_option maxRecDepth 100000 in decide
  · intro v hv
    simp only [List.mem_cons, List.mem_singleton, List.not_mem_nil, or_false] at hv
    rcases hv with rfl | rfl | rfl | rfl | rfl | rfl | rfl | rfl | rfl | rfl | rfl <;>
      exact ⟨rfl, hlen _, count_sep_render _ (hd (by decide))⟩
  · exact ⟨rfl, by simp [params, caret.move2, brace_init, List.ofFn_succ],
      count_sep_render _ (hd (by decide))⟩
  · exact ⟨rfl, by simp [params], by decide⟩
  · intro v hv
    simp only [List.mem_cons, List.mem_singleton, List.not_mem_nil, or_false] at hv
    rcases hv with rfl | rfl | rfl <;> exact ⟨rfl, hlen _, count_sep_render _ (hd (by decide))⟩
  · intro v hv
    simp only [List.mem_cons, List.mem_singleton, List.not_mem_nil, or_false] at hv
    rcases hv with rfl | rfl | rfl <;> exact ⟨rfl, hlen _, count_sep_render _ (hd (by decide))⟩

end ansi

namespace ansi

/-! ## Default arguments -/

/-- C14: with the count omitted, `caret::up`, `caret::down`, `caret::forward`,
`caret::back`, `line::next`, `line::prev`, `scroll::up` and `scroll::down`
behave as if called with 1, and with the extent omitted `erase::all` and
`erase::line` behave as if called with `whole`; `caret::up()` serializes to
`"\x1b[1A"`, which is also the expansion of `CUU(1)`, and `erase::all()` to
`"\x1b[2J"`. -/
theorem default_arguments :
    (caret.up = caret.up 1 ∧ caret.down = caret.down 1 ∧ caret.forward = caret.forward 1
      ∧ caret.back = caret.back 1 ∧ line.next = line.next 1 ∧ line.prev = line.prev 1
      ∧ scroll.up = scroll.up 1 ∧ scroll.down = scroll.down 1)
    ∧ (erase.all = erase.all erase.erase_mode.whole
      ∧ erase.line = erase.line erase.erase_mode.whole)
    ∧ (serialize caret.up = "\x1b[1A".toList ∧ serialize caret.down = "\x1b[1B".toList
      ∧ serialize caret.forward = "\x1b[1C".toList ∧ serialize caret.back = "\x1b[1D".toList
      ∧ serialize line.next = "\x1b[1E".toList ∧ serialize line.prev = "\x1b[1F".toList
      ∧ serialize scroll.up = "\x1b[1S".toList ∧ serialize scroll.down = "\x1b[1T".toList)
    ∧ serialize caret.up = (ansi_h.CUU "1").toList
    ∧ serialize erase.all = "\x1b[2J".toList
    ∧ serialize erase.line = "\x1b[2K".toList := by
  refine ⟨⟨rfl, rfl, rfl, rfl, rfl, rfl, rfl, rfl⟩, ⟨rfl, rfl⟩, by decide, by decide, by decide,
    by decide⟩

end ansi

namespace ansi

/-! ## Erase extents of the line erase -/

/-- C15, as stated, fails: `erase::line` accepts the extent `scrollback`, returns
the parameter 3 for it and serializes to `"\x1b[3K"`, so not every extent that
`erase::line` accepts gives a parameter among 0, 1 and 2. -/
theorem erase_line_scrollback_counterexample :
    (erase.line erase.erase_mode.scrollback).value 0 = 3
    ∧ serialize (erase.line erase.erase_mode.scrollback) = "\x1b[3K".toList
    ∧ ¬ (∀ m : erase.erase_mode,
          (erase.line m).value 0 ∈ ([0, 1, 2] : List byte)
          ∧ serialize (erase.line m) ≠ "\x1b[3K".toList) := by
  refine ⟨by decide, by decide, ?_⟩
  intro h
  exact absurd (h erase.erase_mode.scrollback).1 (by decide)

/-- C15, amended: `erase::line` accepts every extent and passes its number
through unchanged, exactly as `erase::all` does; the parameter is among 0, 1
and 2 for every extent other than `scrollback`, and it is 3 (text `"\x1b[3K"`
for the line erase, `"\x1b[3J"` for the screen erase) exactly for
`scrollback`. -/
theorem erase_line_extents (m : erase.erase_mode) :
    (erase.line m).value 0 = m.to_byte
    ∧ (erase.all m).value 0 = m.to_byte
    ∧ (m ≠ erase.erase_mode.scrollback ↔ (erase.line m).value 0 ∈ ([0, 1, 2] : List byte))
    ∧ (m = erase.erase_mode.scrollback ↔ (erase.line m).value 0 = 3)
    ∧ (m = erase.erase_mode.scrollback ↔ serialize (erase.line m) = "\x1b[3K".toList)
    ∧ (m = erase.erase_mode.scrollback ↔ (erase.all m).value 0 = 3)
    ∧ (m = erase.erase_mode.scrollback ↔ serialize (erase.all m) = "\x1b[3J".toList) := by
  cases m <;> decide

end ansi

namespace ansi

/-! ## Shared lemmas on decoding -/

theorem decimal_param_chars : ∀ b : byte, ∀ c ∈ decimal b.val, param_char c = true := by
  set_option maxRecDepth 100000 in decide

theorem decimal_ne_nil (b : byte) : decimal b.val ≠ [] := by
  intro h
  have hlen := (decimal_byte_facts b).2.1
  rw [h] at hlen
  simp at hlen

theorem tail_param_chars (ps : List byte) :
    ∀ c ∈ (ps.map fun b => ';' :: decimal b.val).flatten, param_char c = true := by
  induction ps with
  | nil => simp
  | cons p ps ih =>
    intro c hc
    simp only [List.map_cons, List.flatten_cons, List.mem_append, List.mem_cons] at hc
    rcases hc with (rfl | hc) | hc
    · decide
    · exact decimal_param_chars p c hc
    · exact ih c hc

theorem param_text_chars (ps : List byte) : ∀ c ∈ param_text ps, param_char c = true := by
  cases ps with
  | nil => simp [param_text, List.intercalate]
  | cons p ps =>
    intro c hc
    rw [param_text, intercalate_cons_map, List.mem_append] at hc
    rcases hc with hc | hc
    · exact decimal_param_chars p c hc
    · exact tail_param_chars ps c hc

/-- Two texts that agree and whose first character outside the parameter
alphabet ends a prefix inside it have the same prefix, the same such character
and the same remainder. -/
theorem split_at_terminator (a b x y : List Char) (t u : Char)
    (ha : ∀ c ∈ a, param_char c = true) (hb : ∀ c ∈ b, param_char c = true)
    (ht : param_char t = false) (hu : param_char u = false)
    (h : a ++ t :: x = b ++ u :: y) : a = b ∧ t = u ∧ x = y := by
  induction a generalizing b with
  | nil =>
    cases b with
    | nil => simpa using h
    | cons c cs =>
      simp only [List.nil_append, List.cons_append, List.cons.injEq] at h
      have hc := hb c (List.mem_cons_self _ _)
      rw [← h.1, ht] at hc
      exact absurd hc (by decide)
  | cons c cs ih =>
    cases b with
    | nil =>
      simp only [List.nil_append, List.cons_append, List.cons.injEq] at h
      have hc := ha c (List.mem_cons_self _ _)
      rw [h.1, hu] at hc
      exact absurd hc (by decide)
    | cons d ds =>
      simp only [List.cons_append, List.cons.injEq] at h
      obtain ⟨h1, h2⟩ := h
      have hrec := ih ds (fun e he => ha e (List.mem_cons_of_mem _ he))
        (fun e he => hb e (List.mem_cons_of_mem _ he)) h2
      exact ⟨by rw [h1, hrec.1], hrec.2⟩

theorem head_tail_inj (ps : List byte) :
    ∀ (p q : byte) (qs : List byte),
      decimal p.val ++ (ps.map fun b => ';' :: decimal b.val).flatten =
        decimal q.val ++ (qs.map fun b => ';' :: decimal b.val).flatten →
      p = q ∧ ps = qs := by
  induction ps with
  | nil =>
    intro p q qs h
    cases qs with
    | nil => exact ⟨decimal_byte_inj p q (by simpa using h), rfl⟩
    | cons q1 qs =>
      exfalso
      apply sep_not_mem_decimal p
      have hm : ';' ∈ decimal p.val ++ (([] : List byte).map fun b => ';' :: decimal b.val).flatten := by
        rw [h]
        simp
      simpa using hm
  | cons p1 ps ih =>
    intro p q qs h
    cases qs with
    | nil =>
      exfalso
      apply sep_not_mem_decimal q
      have hm : ';' ∈ decimal q.val ++ (([] : List byte).map fun b => ';' :: decimal b.val).flatten := by
        rw [← h]
        simp
      simpa using hm
    | cons q1 qs =>
      simp only [List.map_cons, List.flatten_cons, List.cons_append] at h
      have hs := no_sep_split _ _ _ _ (sep_not_mem_decimal p) (sep_not_mem_decimal q) h
      have hrec := ih p1 q1 qs hs.2
      exact ⟨decimal_byte_inj p q hs.1, by rw [hrec.1, hrec.2]⟩

theorem param_text_inj (ps qs : List byte) (h : param_text ps = param_text qs) : ps = qs := by
  cases ps with
  | nil =>
    cases qs with
    | nil => rfl
    | cons q qs =>
      exfalso
      rw [param_text, param_text, intercalate_cons_map] at h
      simp only [List.map_nil, List.intercalate, List.intersperse, List.flatten_nil] at h
      have hq := decimal_ne_nil q
      cases hd : decimal q.val with
      | nil => exact hq hd
      | cons c cs => rw [hd] at h; simp at h
  | cons p ps =>
    cases qs with
    | nil =>
      exfalso
      rw [param_text, param_text, intercalate_cons_map] at h
      simp only [List.map_nil, List.intercalate, List.intersperse, List.flatten_nil] at h
      have hp := decimal_ne_nil p
      cases hd : decimal p.val with
      | nil => exact hp hd
      | cons c cs => rw [hd] at h; simp at h
    | cons q qs =>
      rw [param_text, param_text, intercalate_cons_map, intercalate_cons_map] at h
      have hrec := head_tail_inj ps p q qs h
      rw [hrec.1, hrec.2]

theorem any_csi_ext (v w : any_csi) (hp : params v = params w)
    (hd : v.2.delim = w.2.delim) : v = w := by
  obtain ⟨N, ⟨p, t⟩⟩ := v
  obtain ⟨M, ⟨q, u⟩⟩ := w
  simp only [params] at hp hd
  have hNM : N = M := by
    have hl := congrArg List.length hp
    simpa using hl
  subst hNM
  have hpq : p = q := List.ofFn_injective hp
  subst hpq
  subst hd
  rfl

theorem render_inj (v w : any_csi) (h : render v = render w) : v = w := by
  rw [render, render, serialize_eq_param_text, serialize_eq_param_text] at h
  simp only [List.cons.injEq, true_and] at h
  have hs := List.append_inj' h rfl
  exact any_csi_ext v w (param_text_inj _ _ hs.1) (by simpa using hs.2)

theorem render_all_inj (vs : List any_csi) :
    ∀ ws : List any_csi,
      (∀ v ∈ vs, param_char v.2.delim = false) → (∀ w ∈ ws, param_char w.2.delim = false) →
      (vs.map render).flatten = (ws.map render).flatten → vs = ws := by
  induction vs with
  | nil =>
    intro ws _ _ h
    cases ws with
    | nil => rfl
    | cons w ws =>
      exfalso
      simp [render, serialize_eq_param_text] at h
  | cons v vs ih =>
    intro ws hv hw h
    cases ws with
    | nil =>
      exfalso
      simp [render, serialize_eq_param_text] at h
    | cons w ws =>
      simp only [List.map_cons, List.flatten_cons] at h
      rw [render, render, serialize_eq_param_text, serialize_eq_param_text] at h
      simp only [List.cons_append, List.cons.injEq, true_and, List.append_assoc,
        List.singleton_append] at h
      have hs := split_at_terminator _ _ _ _ _ _ (param_text_chars _) (param_text_chars _)
        (hv v (List.mem_cons_self _ _)) (hw w (List.mem_cons_self _ _)) h
      have hvw : v = w := any_csi_ext v w (param_text_inj _ _ hs.1) hs.2.1
      have hrec := ih ws (fun x hx => hv x (List.mem_cons_of_mem _ hx))
        (fun x hx => hw x (List.mem_cons_of_mem _ hx)) hs.2.2
      rw [hvw, hrec]

theorem terminators_not_param_char : ∀ t ∈ terminators, param_char t = false := by
  decide

end ansi

namespace ansi

theorem esc_not_mem_tail (v : any_csi) (h : v.2.delim ≠ '\x1b') :
    ∃ rest, render v = '\x1b' :: rest ∧ '\x1b' ∉ rest := by
  refine ⟨'[' :: (param_text (params v) ++ [v.2.delim]), serialize_eq_param_text v.2, ?_⟩
  intro hm
  simp only [List.mem_cons, List.mem_append, List.mem_singleton, List.not_mem_nil,
    or_false] at hm
  rcases hm with hm | hm | hm
  · exact absurd hm (by decide)
  · exact absurd (param_text_chars _ _ hm) (by decide)
  · exact h hm.symm

theorem serialize_inj_of_params {α : Type} {N : Nat} (f : α → csi N) (ps : α → List byte)
    (hps : ∀ a, List.ofFn (f a).value = ps a) (hinj : Function.Injective ps) :
    Function.Injective fun a => serialize (f a) := by
  intro a b h
  have hv : (⟨N, f a⟩ : any_csi) = ⟨N, f b⟩ := render_inj ⟨N, f a⟩ ⟨N, f b⟩ h
  have hp := congrArg params hv
  simp only [params, hps] at hp
  exact hinj hp

/-! ## Self-delimitation and injectivity -/

/-- C16: concatenated serializations are self-delimited: for two finite lists
of sequence values of any arities whose terminators all belong to the listed
terminator set, equal concatenations of the serialized forms force the lists to
have the same length and to be equal element by element (same arity, same
parameters, same terminator); and ESC occurs in each serialized form at its
first position only. -/
theorem concat_self_delimited (vs ws : List any_csi)
    (hv : ∀ v ∈ vs, v.2.delim ∈ terminators) (hw : ∀ w ∈ ws, w.2.delim ∈ terminators)
    (h : (vs.map render).flatten = (ws.map render).flatten) :
    vs = ws
    ∧ vs.length = ws.length
    ∧ List.Forall₂
        (fun v w => arity v = arity w ∧ params v = params w ∧ v.2.delim = w.2.delim) vs ws
    ∧ (∀ v ∈ vs ++ ws, ∃ rest, render v = '\x1b' :: rest ∧ '\x1b' ∉ rest) := by
  have heq : vs = ws :=
    render_all_inj vs ws (fun v m => terminators_not_param_char _ (hv v m))
      (fun w m => terminators_not_param_char _ (hw w m)) h
  subst heq
  refine ⟨rfl, rfl, ?_, ?_⟩
  · exact List.forall₂_same.mpr fun v _ => ⟨rfl, rfl, rfl⟩
  · intro v hm
    have hmem : v ∈ vs := by simpa using hm
    refine esc_not_mem_tail v ?_
    intro he
    have ht := hv v hmem
    rw [he] at ht
    exact absurd ht (by decide)

/-- Instance of C16 at the one-element lists `text::un::bold` and
`text::un::faint`, which are the same value `{22, 'm'}`. -/
theorem concat_self_delimited_witness :
    (∀ v ∈ ([⟨1, text.un.bold⟩] : List any_csi), v.2.delim ∈ terminators)
    ∧ (∀ w ∈ ([⟨1, text.un.faint⟩] : List any_csi), w.2.delim ∈ terminators)
    ∧ (([⟨1, text.un.bold⟩] : List any_csi).map render).flatten =
        (([⟨1, text.un.faint⟩] : List any_csi).map render).flatten
    ∧ ([⟨1, text.un.bold⟩] : List any_csi) = [⟨1, text.un.faint⟩] :=
  ⟨by decide, by decide, by decide,
    (concat_self_delimited [⟨1, text.un.bold⟩] [⟨1, text.un.faint⟩] (by decide) (by decide)
      (by decide)).1⟩

/-- C17: serialization is injective over all sequence values, whatever the
terminator characters: equal texts force equal arities, equal parameter vectors
and equal terminators; hence a decoder recovers the value from its text, and no
factory maps two different argument tuples to the same text. -/
theorem serialize_injective :
    (∀ (N M : Nat) (p : Fin N → byte) (q : Fin M → byte) (t u : Char),
        serialize (⟨p, t⟩ : csi N) = serialize (⟨q, u⟩ : csi M) →
          N = M ∧ List.ofFn p = List.ofFn q ∧ HEq p q ∧ t = u)
    ∧ Function.Injective render
    ∧ (∃ decode : List Char → Option any_csi, ∀ v, decode (render v) = some v)
    ∧ (Function.Injective (fun n => serialize (caret.up n))
      ∧ Function.Injective (fun n => serialize (caret.down n))
      ∧ Function.Injective (fun n => serialize (caret.forward n))
      ∧ Function.Injective (fun n => serialize (caret.back n))
      ∧ Function.Injective (fun n => serialize (caret.move n))
      ∧ Function.Injective (fun n => serialize (line.next n))
      ∧ Function.Injective (fun n => serialize (line.prev n))
      ∧ Function.Injective (fun n => serialize (scroll.up n))
      ∧ Function.Injective (fun n => serialize (scroll.down n)))
    ∧ Function.Injective (fun a : byte × byte => serialize (caret.move2 a.1 a.2))
    ∧ (Function.Injective (fun m => serialize (erase.all m))
      ∧ Function.Injective (fun m => serialize (erase.line m)))
    ∧ (Function.Injective (fun c => serialize (fg.set c))
      ∧ Function.Injective (fun c => serialize (bg.set c))
      ∧ Function.Injective (fun c => serialize (underline.set c)))
    ∧ (Function.Injective (fun a : byte × byte × byte => serialize (fg.rgb a.1 a.2.1 a.2.2))
      ∧ Function.Injective (fun a : byte × byte × byte => serialize (bg.rgb a.1 a.2.1 a.2.2))
      ∧ Function.Injective
          (fun a : byte × byte × byte => serialize (underline.rgb a.1 a.2.1 a.2.2))) := by
  have h1 : ∀ t : Char, Function.Injective fun n : byte =>
      serialize (⟨brace_init 1 [n], t⟩ : csi 1) := fun t =>
    serialize_inj_of_params _ (fun n => [n]) (fun n => by simp [brace_init, List.ofFn_succ])
      (fun a b h => by simpa using h)
  have he : ∀ t : Char, Function.Injective fun m : erase.erase_mode =>
      serialize (⟨brace_init 1 [m.to_byte], t⟩ : csi 1) := fun t =>
    serialize_inj_of_params _ (fun m => [m.to_byte])
      (fun m => by simp [brace_init, List.ofFn_succ])
      (fun a b h => by cases a <;> cases b <;> first | rfl | exact absurd h (by decide))
  have h3 : ∀ s : byte, Function.Injective fun c : byte =>
      serialize (⟨brace_init 3 [s, 5, c], 'm'⟩ : csi 3) := fun s =>
    serialize_inj_of_params _ (fun c => [s, 5, c])
      (fun c => by simp [brace_init, List.ofFn_succ]) (fun a b h => by simpa using h)
  have h5 : ∀ s : byte, Function.Injective fun a : byte × byte × byte =>
      serialize (⟨brace_init 5 [s, 2, a.1, a.2.1, a.2.2], 'm'⟩ : csi 5) := fun s =>
    serialize_inj_of_params _ (fun a => [s, 2, a.1, a.2.1, a.2.2])
      (fun a => by simp [brace_init, List.ofFn_succ])
      (fun a b h => by
        simp only [List.cons.injEq, and_true, true_and] at h
        exact Prod.ext h.1 (Prod.ext h.2.1 h.2.2))
  refine ⟨?_, render_inj, ?_, ⟨h1 'A', h1 'B', h1 'C', h1 'D', h1 'G', h1 'E', h1 'F', h1 'S',
    h1 'T'⟩, ?_, ⟨he 'J', he 'K'⟩, ⟨h3 38, h3 48, h3 58⟩, ⟨h5 38, h5 48, h5 58⟩⟩
  · intro N M p q t u h
    have hv := render_inj ⟨N, ⟨p, t⟩⟩ ⟨M, ⟨q, u⟩⟩ h
    cases hv
    exact ⟨rfl, rfl, HEq.rfl, rfl⟩
  · classical
    refine ⟨fun s => if h : ∃ v, render v = s then some (Classical.choose h) else none, ?_⟩
    intro v
    have hex : ∃ w, render w = render v := ⟨v, rfl⟩
    simp only [hex, dite_true, Option.some.injEq]
    exact render_inj _ _ (Classical.choose_spec hex)
  · exact serialize_inj_of_params (fun a : byte × byte => caret.move2 a.1 a.2)
      (fun a => [a.1, a.2]) (fun a => by simp [caret.move2, brace_init, List.ofFn_succ])
      (fun a b h => by
        simp only [List.cons.injEq, and_true] at h
        exact Prod.ext h.1 h.2)

end ansi

namespace ansi

/-! ## Terminators -/

theorem well_terminated_shape (s body : List Char) (t : Char) (ht : t ∈ terminators)
    (hs : s = '\x1b' :: '[' :: (body ++ [t])) : well_terminated s := by
  subst hs
  refine ⟨by simp, by simp, t, ht, ?_⟩
  rw [List.getLast?_cons_cons, List.getLast?_cons]
  simp [List.getLast?_append]

theorem well_terminated_render (v : any_csi) (h : v.2.delim ∈ terminators) :
    well_terminated (render v) :=
  well_terminated_shape _ _ _ h (serialize_eq_param_text v.2)

end ansi

namespace ansi

/-- C18: every sequence the library can produce begins with ESC `[` and ends in
a terminator of the listed set `A B C D E F G H J K S T f m n s u`: every fixed
catalog entry, every factory for every argument, and every sequence macro of the
alternate header (the argument-free ones, and the parameterized ones for every
argument text; `ESC` itself is the introducer from which they are built). -/
theorem sequences_well_terminated (n c r g b row column : byte) (m : erase.erase_mode)
    (x y z : String) :
    (∀ v : any_csi, v.2.delim ∈ terminators → well_terminated (render v))
    ∧ (∀ e ∈ fixed_catalog, e.2.delim ∈ terminators ∧ well_terminated (serialize e.2))
    ∧ (∀ v ∈ ([⟨_, caret.up n⟩, ⟨_, caret.down n⟩, ⟨_, caret.forward n⟩, ⟨_, caret.back n⟩,
          ⟨_, caret.move n⟩, ⟨_, caret.move2 row column⟩, ⟨_, caret.home⟩, ⟨_, line.next n⟩,
          ⟨_, line.prev n⟩, ⟨_, erase.all m⟩, ⟨_, erase.line m⟩, ⟨_, scroll.up n⟩,
          ⟨_, scroll.down n⟩, ⟨_, fg.set c⟩, ⟨_, fg.rgb r g b⟩, ⟨_, bg.set c⟩,
          ⟨_, bg.rgb r g b⟩, ⟨_, underline.set c⟩, ⟨_, underline.rgb r g b⟩] : List any_csi),
        v.2.delim ∈ terminators ∧ well_terminated (render v))
    ∧ (∀ e ∈ ansi_h.csi_macros ++ ansi_h.sgr_macros, well_terminated e.2.toList)
    ∧ (∀ s ∈
        [ansi_h.CUU x, ansi_h.CUD x, ansi_h.CUF x, ansi_h.CUB x, ansi_h.CNL x, ansi_h.CPL x,
         ansi_h.CHA x, ansi_h.ED x, ansi_h.EL x, ansi_h.SU x, ansi_h.SD x, ansi_h.SGR x,
         ansi_h.CUP x y, ansi_h.HVP x y, ansi_h.FG_SET x, ansi_h.BG_SET x,
         ansi_h.UNDERLINE_SET x, ansi_h.FG_RGB x y z, ansi_h.BG_RGB x y z,
         ansi_h.UNDERLINE_RGB x y z],
        well_terminated s.toList)
    ∧ ansi_h.ESC.toList = ['\x1b', '['] := by
  have hd : ∀ {N : Nat} {p : Fin N → byte} {t : Char}, t ∈ terminators →
      (⟨N, ⟨p, t⟩⟩ : any_csi).2.delim ∈ terminators := fun h => h
  refine ⟨well_terminated_render, ?_, ?_, ?_, ?_, by decide⟩
  · set_option maxRecDepth 100000 in decide
  · intro v hv
    simp only [List.mem_cons, List.mem_singleton, List.not_mem_nil, or_false] at hv
    rcases hv with rfl | rfl | rfl | rfl | rfl | rfl | rfl | rfl | rfl | rfl | rfl | rfl | rfl
      | rfl | rfl | rfl | rfl | rfl | rfl <;>
      exact ⟨hd (by decide), well_terminated_render _ (hd (by decide))⟩
  · set_option maxRecDepth 100000 in decide
  · intro s hs
    simp only [List.mem_cons, List.mem_singleton, List.not_mem_nil, or_false] at hs
    rcases hs with rfl | rfl | rfl | rfl | rfl | rfl | rfl | rfl | rfl | rfl | rfl | rfl | rfl
      | rfl | rfl | rfl | rfl | rfl | rfl | rfl
    · exact well_terminated_shape _ x.toList 'A' (by decide)
        (by simp [ansi_h.CUU, ansi_h.ESC])
    · exact well_terminated_shape _ x.toList 'B' (by decide)
        (by simp [ansi_h.CUD, ansi_h.ESC])
    · exact well_terminated_shape _ x.toList 'C' (by decide)
        (by simp [ansi_h.CUF, ansi_h.ESC])
    · exact well_terminated_shape _ x.toList 'D' (by decide)
        (by simp [ansi_h.CUB, ansi_h.ESC])
    · exact well_terminated_shape _ x.toList 'E' (by decide)
        (by simp [ansi_h.CNL, ansi_h.ESC])
    · exact well_terminated_shape _ x.toList 'F' (by decide)
        (by simp [ansi_h.CPL, ansi_h.ESC])
    · exact well_terminated_shape _ x.toList 'G' (by decide)
        (by simp [ansi_h.CHA, ansi_h.ESC])
    · exact well_terminated_shape _ x.toList 'J' (by decide)
        (by simp [ansi_h.ED, ansi_h.ESC])
    · exact well_terminated_shape _ x.toList 'K' (by decide)
        (by simp [ansi_h.EL, ansi_h.ESC])
    · exact well_terminated_shape _ x.toList 'S' (by decide)
        (by simp [ansi_h.SU, ansi_h.ESC])
    · exact well_terminated_shape _ x.toList 'T' (by decide)
        (by simp [ansi_h.SD, ansi_h.ESC])
    · exact well_terminated_shape _ x.toList 'm' (by decide)
        (by simp [ansi_h.SGR, ansi_h.ESC])
    · exact well_terminated_shape _ (x.toList ++ ';' :: y.toList) 'H' (by decide)
        (by simp [ansi_h.CUP, ansi_h.ESC])
    · exact well_terminated_shape _ (x.toList ++ ';' :: y.toList) 'f' (by decide)
        (by simp [ansi_h.HVP, ansi_h.ESC])
    · exact well_terminated_shape _ ("38;5;".toList ++ x.toList) 'm' (by decide)
        (by simp [ansi_h.FG_SET, ansi_h.ESC])
    · exact well_terminated_shape _ ("48;5;".toList ++ x.toList) 'm' (by decide)
        (by simp [ansi_h.BG_SET, ansi_h.ESC])
    · exact well_terminated_shape _ ("58;5;".toList ++ x.toList) 'm' (by decide)
        (by simp [ansi_h.UNDERLINE_SET, ansi_h.ESC])
    · exact well_terminated_shape _
        ("38;2;".toList ++ x.toList ++ ';' :: y.toList ++ ';' :: z.toList) 'm' (by decide)
        (by simp [ansi_h.FG_RGB, ansi_h.ESC])
    · exact well_terminated_shape _
        ("48;2;".toList ++ x.toList ++ ';' :: y.toList ++ ';' :: z.toList) 'm' (by decide)
        (by simp [ansi_h.BG_RGB, ansi_h.ESC])
    · exact well_terminated_shape _
        ("58;2;".toList ++ x.toList ++ ';' :: y.toList ++ ';' :: z.toList) 'm' (by decide)
        (by simp [ansi_h.UNDERLINE_RGB, ansi_h.ESC])

end ansi

namespace ansi

/-! ## Totality and bounds of the subscripts -/

theorem for_loop_raw_eq {N : Nat} (value : Fin N → byte) :
    ∀ (fuel i : Nat) (st : ostream × List Nat), N - i < fuel →
      for_loop_raw N (List.ofFn value) fuel i st =
        some (st.1 ++ (((List.ofFn value).drop i).map sep_param).flatten,
          st.2 ++ List.range' i (N - i)) := by
  intro fuel
  induction fuel with
  | zero => intro i st h; omega
  | succ fuel ih =>
    intro i st h
    by_cases hi : i < N
    · have hlen : i < (List.ofFn value).length := by rw [List.length_ofFn]; exact hi
      have hget : (List.ofFn value).get? i = some (value ⟨i, hi⟩) := by
        rw [List.get?_eq_getElem?, List.getElem?_eq_getElem hlen, List.getElem_ofFn]
      have hr : N - i = (N - (i + 1)) + 1 := by omega
      rw [for_loop_raw, if_pos hi, hget]
      simp only []
      rw [ih (i + 1) _ (by omega), List.drop_eq_getElem_cons hlen, List.getElem_ofFn, hr,
        List.range'_succ]
      simp [ostream.put_char, ostream.put_unsigned, sep_param]
    · have hlen : (List.ofFn value).length ≤ i := by rw [List.length_ofFn]; omega
      have hz : N - i = 0 := by omega
      rw [for_loop_raw, if_neg hi, List.drop_eq_nil_of_le hlen, hz]
      simp

theorem operator_shl_raw_eq {N : Nat} (obj : csi N) (os : ostream) (fuel : Nat)
    (hf : N ≤ fuel) :
    operator_shl_raw N (List.ofFn obj.value) obj.delim fuel os =
      some (operator_shl os obj, List.range N) := by
  rcases Nat.eq_zero_or_pos N with h0 | hpos
  · subst h0
    simp [operator_shl_raw, operator_shl]
  · have hlen : 0 < (List.ofFn obj.value).length := by rw [List.length_ofFn]; exact hpos
    have hget : (List.ofFn obj.value).get? 0 = some (obj.value ⟨0, hpos⟩) := by
      rw [List.get?_eq_getElem?, List.getElem?_eq_getElem hlen, List.getElem_ofFn]
    have hrange : List.range N = 0 :: List.range' 1 (N - 1) := by
      rw [List.range_eq_range']
      have hr : N = (N - 1) + 1 := by omega
      conv_lhs => rw [hr, List.range'_succ]
    rw [operator_shl_pos hpos, hrange]
    unfold operator_shl_raw
    simp only [gt_iff_lt, hpos, if_true, hget]
    by_cases h1 : 1 < N
    · simp [h1, for_loop_raw_eq obj.value fuel 1 _ (by omega : N - 1 < fuel),
        ostream.put_str, ostream.put_char, ostream.put_unsigned]
    · have hl1 : (List.ofFn obj.value).length ≤ 1 := by rw [List.length_ofFn]; omega
      have hz : N - 1 = 0 := by omega
      simp [h1, hz, List.drop_eq_nil_of_le hl1, ostream.put_str, ostream.put_char,
        ostream.put_unsigned]

/-- C19: the serializer is total and cannot fail: run on the raw parameter array
with unchecked subscripts it returns a text for every arity, parameter vector
and terminator, namely the text of the insertion operator, within `N`
evaluations of the loop condition; it reads the indices `0, 1, ..., N-1` in this
order, one per emitted parameter, every one of them smaller than `N`, and none
at all when `N = 0`. -/
theorem serializer_total {N : Nat} (obj : csi N) (os : ostream) :
    ∃ reads : List Nat,
      operator_shl_raw N (List.ofFn obj.value) obj.delim N os =
          some (operator_shl os obj, reads)
      ∧ (∀ fuel, N ≤ fuel →
          operator_shl_raw N (List.ofFn obj.value) obj.delim fuel os =
            some (operator_shl os obj, reads))
      ∧ reads = List.range N
      ∧ reads.length = N
      ∧ (∀ i ∈ reads, i < N)
      ∧ (N = 0 → reads = []) := by
  refine ⟨List.range N, operator_shl_raw_eq obj os N (Nat.le_refl N),
    fun fuel hf => operator_shl_raw_eq obj os fuel hf, rfl, List.length_range N, ?_, ?_⟩
  · intro i hi
    exact List.mem_range.mp hi
  · intro h
    subst h
    rfl

end ansi

namespace ansi

/-! ## The text macros against the factories -/

theorem literal_toList : ∀ b : byte, (literal b).toList = decimal b.val := by
  set_option maxRecDepth 100000 in decide

theorem literal_data (b : byte) : (literal b).data = decimal b.val := literal_toList b

/-- C20: for all bytes written as their canonical decimal literal, every
parameterized text macro expands to the text the serializer produces for the
corresponding factory: `CUU`/`CUD`/`CUF`/`CUB` and `caret::up`/`down`/`forward`/
`back`, `CNL`/`CPL` and `line::next`/`prev`, `CHA(n)` and `caret::move(n)`,
`CUP(n, m)` and `caret::move(n, m)`, `SU`/`SD` and `scroll::up`/`down`, `ED(k)`/
`EL(k)` and `erase::all`/`erase::line` of the extent numbered `k`, the `_SET`
macros and `set`, the `_RGB` macros and `rgb`; `BG_RGB(123, 42, 98)` equals the
serialization of `bg::rgb(123, 42, 98)`. -/
theorem macros_match_factories (n m r g b : byte) (k : erase.erase_mode) :
    ((ansi_h.CUU (literal n)).toList = serialize (caret.up n)
      ∧ (ansi_h.CUD (literal n)).toList = serialize (caret.down n)
      ∧ (ansi_h.CUF (literal n)).toList = serialize (caret.forward n)
      ∧ (ansi_h.CUB (literal n)).toList = serialize (caret.back n)
      ∧ (ansi_h.CNL (literal n)).toList = serialize (line.next n)
      ∧ (ansi_h.CPL (literal n)).toList = serialize (line.prev n)
      ∧ (ansi_h.CHA (literal n)).toList = serialize (caret.move n)
      ∧ (ansi_h.SU (literal n)).toList = serialize (scroll.up n)
      ∧ (ansi_h.SD (literal n)).toList = serialize (scroll.down n))
    ∧ (ansi_h.CUP (literal n) (literal m)).toList = serialize (caret.move2 n m)
    ∧ ((ansi_h.ED (literal k.to_byte)).toList = serialize (erase.all k)
      ∧ (ansi_h.EL (literal k.to_byte)).toList = serialize (erase.line k)
      ∧ (ansi_h.ED "0").toList = serialize (erase.all erase.erase_mode.from_caret)
      ∧ (ansi_h.ED "1").toList = serialize (erase.all erase.erase_mode.to_caret)
      ∧ (ansi_h.ED "2").toList = serialize (erase.all erase.erase_mode.whole)
      ∧ (ansi_h.ED "3").toList = serialize (erase.all erase.erase_mode.scrollback)
      ∧ (ansi_h.EL "0").toList = serialize (erase.line erase.erase_mode.from_caret)
      ∧ (ansi_h.EL "1").toList = serialize (erase.line erase.erase_mode.to_caret)
      ∧ (ansi_h.EL "2").toList = serialize (erase.line erase.erase_mode.whole)
      ∧ (ansi_h.EL "3").toList = serialize (erase.line erase.erase_mode.scrollback))
    ∧ ((ansi_h.FG_SET (literal n)).toList = serialize (fg.set n)
      ∧ (ansi_h.BG_SET (literal n)).toList = serialize (bg.set n)
      ∧ (ansi_h.UNDERLINE_SET (literal n)).toList = serialize (underline.set n))
    ∧ ((ansi_h.FG_RGB (literal r) (literal g) (literal b)).toList = serialize (fg.rgb r g b)
      ∧ (ansi_h.BG_RGB (literal r) (literal g) (literal b)).toList = serialize (bg.rgb r g b)
      ∧ (ansi_h.UNDERLINE_RGB (literal r) (literal g) (literal b)).toList =
          serialize (underline.rgb r g b))
    ∧ (ansi_h.BG_RGB "123" "42" "98").toList = serialize (bg.rgb 123 42 98)
    ∧ (literal 123 = "123" ∧ literal 42 = "42" ∧ literal 98 = "98"
      ∧ literal 0 = "0" ∧ literal 255 = "255") := by
  have e38 : ((38 : byte) : Nat) = 38 := rfl
  have e48 : ((48 : byte) : Nat) = 48 := rfl
  have e58 : ((58 : byte) : Nat) = 58 := rfl
  have e5 : ((5 : byte) : Nat) = 5 := rfl
  have e2 : ((2 : byte) : Nat) = 2 := rfl
  have h38 : decimal 38 = ['3', '8'] := by decide
  have h48 : decimal 48 = ['4', '8'] := by decide
  have h58 : decimal 58 = ['5', '8'] := by decide
  have h5 : decimal 5 = ['5'] := by decide
  have h2 : decimal 2 = ['2'] := by decide
  refine ⟨⟨?_, ?_, ?_, ?_, ?_, ?_, ?_, ?_, ?_⟩, ?_, ?_, ⟨?_, ?_, ?_⟩, ⟨?_, ?_, ?_⟩, by decide,
    by decide⟩
  · simp [ansi_h.CUU, ansi_h.ESC, literal_data, caret.up, serialize_brace1]
  · simp [ansi_h.CUD, ansi_h.ESC, literal_data, caret.down, serialize_brace1]
  · simp [ansi_h.CUF, ansi_h.ESC, literal_data, caret.forward, serialize_brace1]
  · simp [ansi_h.CUB, ansi_h.ESC, literal_data, caret.back, serialize_brace1]
  · simp [ansi_h.CNL, ansi_h.ESC, literal_data, line.next, serialize_brace1]
  · simp [ansi_h.CPL, ansi_h.ESC, literal_data, line.prev, serialize_brace1]
  · simp [ansi_h.CHA, ansi_h.ESC, literal_data, caret.move, serialize_brace1]
  · simp [ansi_h.SU, ansi_h.ESC, literal_data, scroll.up, serialize_brace1]
  · simp [ansi_h.SD, ansi_h.ESC, literal_data, scroll.down, serialize_brace1]
  · simp [ansi_h.CUP, ansi_h.ESC, literal_data, caret.move2, serialize_brace2]
  · cases k <;> decide
  · simp [ansi_h.FG_SET, ansi_h.ESC, literal_data, fg.set, serialize_brace3, e38, e5, h38, h5]
  · simp [ansi_h.BG_SET, ansi_h.ESC, literal_data, bg.set, serialize_brace3, e48, e5, h48, h5]
  · simp [ansi_h.UNDERLINE_SET, ansi_h.ESC, literal_data, underline.set, serialize_brace3,
      e58, e5, h58, h5]
  · simp [ansi_h.FG_RGB, ansi_h.ESC, literal_data, fg.rgb, serialize_brace5, e38, e2, h38, h2]
  · simp [ansi_h.BG_RGB, ansi_h.ESC, literal_data, bg.rgb, serialize_brace5, e48, e2, h48, h2]
  · simp [ansi_h.UNDERLINE_RGB, ansi_h.ESC, literal_data, underline.rgb, serialize_brace5,
      e58, e2, h58, h2]

end ansi

namespace ansi

/-! ## The argument-free macros against the catalog -/

/-- C21: each argument-free graphics-rendition macro expands to exactly the text
the serializer produces for the typed catalog entry of the same role: `RESET`
and `reset`, the eleven attribute macros and the `text` entries (`RAPID_BLINK`
with `blink_fast`, `HIDE` with `conceal`), `NORMAL` and `text::un::bold`, the
`UN_` macros and the `text::un` entries, `REVERT`, `REVEAL`, and the colour
macros with the `fg`, `bg`, `fg::bright` and `bg::bright` entries (`BLUE` with
`indigo`, `GRAY` with `gray`); the pairing covers every such macro of the
header.  `FG_RED BG_WHITE` equals serializing `fg::red` then `bg::white`, and
`BOLD ITALIC UNDERLINE BLINK` equals serializing bold, italic, underline, blink
in that order. -/
theorem macros_match_entries :
    (∀ p ∈ role_pairs, p.2.1.toList = serialize p.2.2)
    ∧ role_pairs.map (fun p => (p.1, p.2.1)) = ansi_h.sgr_macros
    ∧ (ansi_h.RESET.toList = serialize reset
      ∧ ansi_h.RAPID_BLINK.toList = serialize text.blink_fast
      ∧ ansi_h.HIDE.toList = serialize text.conceal
      ∧ ansi_h.NORMAL.toList = serialize text.un.bold
      ∧ ansi_h.UN_HIDE.toList = serialize text.un.conceal
      ∧ ansi_h.REVERT.toList = serialize text.revert
      ∧ ansi_h.REVEAL.toList = serialize text.reveal
      ∧ ansi_h.FG_BLUE.toList = serialize fg.indigo
      ∧ ansi_h.BG_BRIGHT_BLUE.toList = serialize bg.bright.indigo
      ∧ ansi_h.FG_GRAY.toList = serialize fg.gray
      ∧ ansi_h.BG_GRAY.toList = serialize bg.gray)
    ∧ (ansi_h.FG_RED ++ ansi_h.BG_WHITE).toList =
        insert_all [] [⟨1, fg.red⟩, ⟨1, bg.white⟩]
    ∧ (ansi_h.BOLD ++ ansi_h.ITALIC ++ ansi_h.UNDERLINE ++ ansi_h.BLINK).toList =
        insert_all [] [⟨1, text.bold⟩, ⟨1, text.italic⟩, ⟨1, text.underline⟩,
          ⟨1, text.blink⟩] := by
  refine ⟨?_, by decide, by decide, by decide, by decide⟩
  set_option maxRecDepth 100000 in decide

end ansi

namespace ansi

/-- C22, as stated, fails: the fixed typed entry `fg::regular` serializes to
`"\x1b[39m"`, and no argument-free graphics-rendition macro of the header
expands to that text (the same holds for `bg::regular`, `"\x1b[49m"`, and
`underline::regular`, `"\x1b[59m"`), so the two sets of texts differ. -/
theorem macro_set_counterexample :
    (∃ e ∈ fixed_catalog, e.1 = "fg::regular" ∧ serialize e.2 = "\x1b[39m".toList)
    ∧ (∀ m ∈ ansi_h.sgr_macros, m.2.toList ≠ "\x1b[39m".toList)
    ∧ (∀ m ∈ ansi_h.sgr_macros, m.2.toList ≠ "\x1b[49m".toList)
    ∧ (∀ m ∈ ansi_h.sgr_macros, m.2.toList ≠ "\x1b[59m".toList)
    ∧ ¬ (∀ t : List Char,
          (∃ m ∈ ansi_h.sgr_macros, m.2.toList = t) ↔
            (∃ e ∈ fixed_catalog, serialize e.2 = t)) := by
  have h39 : ∀ m ∈ ansi_h.sgr_macros, m.2.toList ≠ "\x1b[39m".toList := by
    set_option maxRecDepth 100000 in decide
  have hex : ∃ e ∈ fixed_catalog, serialize e.2 = "\x1b[39m".toList := by
    set_option maxRecDepth 100000 in decide
  refine ⟨by set_option maxRecDepth 100000 in decide, h39,
    by set_option maxRecDepth 100000 in decide,
    by set_option maxRecDepth 100000 in decide, ?_⟩
  intro h
  obtain ⟨m, hm, hmt⟩ := (h "\x1b[39m".toList).mpr hex
  exact h39 m hm hmt

/-- C22, amended: every argument-free graphics-rendition macro of the header
expands to the text of some fixed typed catalog entry, and every fixed typed
entry other than the undo of italic and the restore-default pseudo-colours is
defined as a macro; the restore-default pseudo-colours `fg::regular`,
`bg::regular` and `underline::regular` (`"\x1b[39m"`, `"\x1b[49m"`,
`"\x1b[59m"`) have no macro. -/
theorem macro_set_inclusion :
    (∀ m ∈ ansi_h.sgr_macros, ∃ e ∈ fixed_catalog, serialize e.2 = m.2.toList)
    ∧ (∀ e ∈ fixed_catalog,
        e.1 ∉ ["text::un::italic", "fg::regular", "bg::regular", "underline::regular"] →
          ∃ m ∈ ansi_h.sgr_macros, m.2.toList = serialize e.2)
    ∧ (∀ e ∈ fixed_catalog, e.1 ∈ ["fg::regular", "bg::regular", "underline::regular"] →
        ∀ m ∈ ansi_h.sgr_macros, m.2.toList ≠ serialize e.2)
    ∧ serialize fg.regular = "\x1b[39m".toList
    ∧ serialize bg.regular = "\x1b[49m".toList
    ∧ serialize underline.regular = "\x1b[59m".toList := by
  refine ⟨?_, ?_, ?_, by decide, by decide, by decide⟩
  · set_option maxRecDepth 100000 in decide
  · set_option maxRecDepth 100000 in decide
  · set_option maxRecDepth 100000 in decide

end ansi

namespace ansi

/-! ## Length of the serialized form -/

theorem decimal_length_facts : ∀ b : byte,
    ((decimal b.val).length = 1 ↔ b.val < 10)
    ∧ ((decimal b.val).length = 3 ↔ 100 ≤ b.val) := by
  set_option maxRecDepth 100000 in decide

theorem length_tail (ps : List byte) :
    ((ps.map fun b => ';' :: decimal b.val).flatten).length = digits_total ps + ps.length := by
  induction ps with
  | nil => simp [digits_total]
  | cons p ps ih =>
    simp only [List.map_cons, List.flatten_cons, List.length_append, List.length_cons, ih,
      digits_total, List.sum_cons]
    omega

theorem length_param_text (p : byte) (ps : List byte) :
    (param_text (p :: ps)).length = digits_total (p :: ps) + ps.length := by
  rw [param_text, intercalate_cons_map, List.length_append, length_tail]
  simp only [digits_total, List.map_cons, List.sum_cons]
  omega

theorem digits_total_bounds (ps : List byte) :
    ps.length ≤ digits_total ps
    ∧ digits_total ps ≤ 3 * ps.length
    ∧ (digits_total ps = ps.length ↔ ∀ p ∈ ps, p.val < 10)
    ∧ (digits_total ps = 3 * ps.length ↔ ∀ p ∈ ps, 100 ≤ p.val) := by
  induction ps with
  | nil => simp [digits_total]
  | cons p ps ih =>
    obtain ⟨h1, h2, h3, h4⟩ := ih
    have hlo := (decimal_byte_facts p).2.1
    have hhi := (decimal_byte_facts p).2.2.1
    have hone := (decimal_length_facts p).1
    have hthree := (decimal_length_facts p).2
    simp only [digits_total, List.map_cons, List.sum_cons, List.length_cons, List.mem_cons,
      forall_eq_or_imp] at h1 h2 h3 h4 ⊢
    refine ⟨by omega, by omega, ?_, ?_⟩
    · rw [← hone, ← h3]
      constructor
      · intro h; constructor <;> omega
      · intro h; omega
    · rw [← hthree, ← h4]
      constructor
      · intro h; constructor <;> omega
      · intro h; omega

theorem length_render (v : any_csi) :
    (render v).length = (param_text (params v)).length + 3 := by
  rw [render, serialize_eq_param_text]
  simp [params]

theorem length_render_pos (v : any_csi) (h : 1 ≤ arity v) :
    (render v).length = digits_total (params v) + arity v + 2 := by
  have hlen : (params v).length = arity v := by simp [params, arity]
  rw [length_render]
  cases hp : params v with
  | nil => rw [hp] at hlen; simp at hlen; omega
  | cons p ps =>
    rw [hp] at hlen
    rw [length_param_text]
    simp only [List.length_cons] at hlen
    omega

end ansi

namespace ansi

/-- C23: the serialized length is bounded by the arity alone: for arity 0 the
text has exactly 3 characters, and for every arity `N ≥ 1`, parameter vector and
terminator it has at least `2N + 2` and at most `4N + 2` characters, the lower
bound being reached exactly when every parameter is below 10 and the upper
bound exactly when every parameter is at least 100; so a fixed entry has 4 to 6
characters and an rgb sequence 12 to 22. -/
theorem serialized_length_bounds (v : any_csi) :
    (arity v = 0 → (render v).length = 3)
    ∧ (1 ≤ arity v →
        2 * arity v + 2 ≤ (render v).length
        ∧ (render v).length ≤ 4 * arity v + 2
        ∧ ((render v).length = 2 * arity v + 2 ↔ ∀ p ∈ params v, p.val < 10)
        ∧ ((render v).length = 4 * arity v + 2 ↔ ∀ p ∈ params v, 100 ≤ p.val))
    ∧ (∀ e ∈ fixed_catalog, 4 ≤ (serialize e.2).length ∧ (serialize e.2).length ≤ 6)
    ∧ (∀ r g b : byte, ∀ w ∈ [fg.rgb r g b, bg.rgb r g b, underline.rgb r g b],
        12 ≤ (serialize w).length ∧ (serialize w).length ≤ 22) := by
  have hlen : ∀ u : any_csi, (params u).length = arity u := by
    intro u
    simp [params, arity]
  have hpos : ∀ u : any_csi, 1 ≤ arity u →
      2 * arity u + 2 ≤ (render u).length
      ∧ (render u).length ≤ 4 * arity u + 2
      ∧ ((render u).length = 2 * arity u + 2 ↔ ∀ p ∈ params u, p.val < 10)
      ∧ ((render u).length = 4 * arity u + 2 ↔ ∀ p ∈ params u, 100 ≤ p.val) := by
    intro u h
    obtain ⟨h1, h2, h3, h4⟩ := digits_total_bounds (params u)
    rw [hlen u] at h1 h2 h3 h4
    rw [length_render_pos u h, ← h3, ← h4]
    refine ⟨by omega, by omega, ?_, ?_⟩
    · constructor <;> intro hh <;> omega
    · constructor <;> intro hh <;> omega
  refine ⟨?_, hpos v, ?_, ?_⟩
  · intro h0
    have hnil : params v = [] := List.eq_nil_of_length_eq_zero (by rw [hlen v, h0])
    rw [length_render, hnil]
    simp [param_text, List.intercalate]
  · set_option maxRecDepth 100000 in decide
  · intro r g b w hw
    have hb := hpos ⟨5, w⟩ (by simp [arity])
    simp only [arity, render] at hb
    exact ⟨hb.1, hb.2.1⟩

/-! ## Aliases in the catalog -/

/-- C24: the named fixed catalog entries are pairwise distinct as serialized
text except for exactly the alias pairs `text::un::bold`/`text::un::faint`
(`"\x1b[22m"`), `text::revert`/`text::un::invert` (`"\x1b[27m"`),
`text::reveal`/`text::un::conceal` (`"\x1b[28m"`), `fg::gray`/
`fg::bright::black` (`"\x1b[90m"`) and `bg::gray`/`bg::bright::black`
(`"\x1b[100m"`); any two other distinct named entries serialize to different
texts. -/
theorem catalog_alias_pairs :
    (fixed_catalog.map Prod.fst).Nodup
    ∧ (∀ a ∈ fixed_catalog, ∀ b ∈ fixed_catalog, a.1 ≠ b.1 →
        (serialize a.2 = serialize b.2 ↔
          (a.1, b.1) ∈ alias_pairs ∨ (b.1, a.1) ∈ alias_pairs))
    ∧ (serialize text.un.bold = "\x1b[22m".toList
      ∧ serialize text.un.faint = "\x1b[22m".toList)
    ∧ (serialize text.revert = "\x1b[27m".toList
      ∧ serialize text.un.invert = "\x1b[27m".toList)
    ∧ (serialize text.reveal = "\x1b[28m".toList
      ∧ serialize text.un.conceal = "\x1b[28m".toList)
    ∧ (serialize fg.gray = "\x1b[90m".toList
      ∧ serialize fg.bright.black = "\x1b[90m".toList)
    ∧ (serialize bg.gray = "\x1b[100m".toList
      ∧ serialize bg.bright.black = "\x1b[100m".toList) := by
  refine ⟨?_, ?_, by decide, by decide, by decide, by decide, by decide⟩
  · set_option maxRecDepth 100000 in decide
  · set_option maxRecDepth 1000000 in
    set_option maxHeartbeats 4000000 in
    decide

end ansi
